import Mathlib

/-
Verification of the forecast / schedule / cost-service core of the
GoogleAds-Allert-System repository.

The Python code is shallowly embedded as executable Lean definitions:

* Python `datetime` values become `PyDatetime`: a calendar date
  (year / month / day), a time-of-day in whole microseconds, and an
  optional fixed UTC offset in microseconds.  `zoneinfo.ZoneInfo`
  objects are modelled as fixed UTC offsets (the project default zone
  Asia/Tokyo is a fixed +9:00 zone); with that idealisation
  `astimezone` is a wall-clock shift by the offset difference, and
  subtraction / comparison of aware datetimes compares absolute
  instants, exactly as in CPython.
* Python `timedelta` values become `Int` (whole microseconds), the
  resolution CPython stores.  `timedelta(seconds = x)` rounds `x` to
  the nearest microsecond, ties to even, which is modelled by
  `roundHalfEven`.
* Python `float` arithmetic on money amounts and seconds is idealised
  as exact rational arithmetic (`ℚ`).
* Fallible functions return `Except`, with one constructor per
  distinct `ValueError` raised by the source.

Source files embedded: `google_ads_alert/forecast.py`,
`google_ads_alert/schedule.py`, `google_ads_alert/google_ads_client.py`
and `google_ads_alert/workflow.py`.
-/

/-! ### Calendar arithmetic (model of CPython's `datetime.date`) -/

/-- Microseconds in one day. -/
def usPerDay : Int := 86400000000

/-- Microseconds in one hour. -/
def usPerHour : Int := 3600000000

/-- Gregorian leap-year test, as in CPython `_is_leap`. -/
def isLeap (y : Int) : Bool :=
  decide (y % 4 = 0 ∧ (y % 100 ≠ 0 ∨ y % 400 = 0))

/-- Number of days in month `m` of year `y`, as in CPython `_days_in_month`. -/
def daysInMonth (y : Int) : Nat → Int
  | 1 => 31
  | 2 => if isLeap y then 29 else 28
  | 3 => 31
  | 4 => 30
  | 5 => 31
  | 6 => 30
  | 7 => 31
  | 8 => 31
  | 9 => 30
  | 10 => 31
  | 11 => 30
  | 12 => 31
  | _ => 0

/-- Cumulative day table of CPython `_DAYS_BEFORE_MONTH`. -/
def daysBeforeMonthBase : Nat → Int
  | 1 => 0
  | 2 => 31
  | 3 => 59
  | 4 => 90
  | 5 => 120
  | 6 => 151
  | 7 => 181
  | 8 => 212
  | 9 => 243
  | 10 => 273
  | 11 => 304
  | 12 => 334
  | _ => 0

/-- Days in year `y` preceding the first of month `m`
(CPython `_days_before_month`). -/
def daysBeforeMonth (y : Int) (m : Nat) : Int :=
  daysBeforeMonthBase m + (if 2 < m ∧ isLeap y then 1 else 0)

/-- Days before January 1st of year `y` (CPython `_days_before_year`);
`/` on `Int` is Euclidean division, which agrees with Python's floor
division for the positive divisors used here. -/
def daysBeforeYear (y : Int) : Int :=
  let yp := y - 1
  365 * yp + yp / 4 - yp / 100 + yp / 400

/-- Proleptic-Gregorian ordinal of a calendar day (CPython `_ymd2ord`). -/
def ymdToOrd (y : Int) (m : Nat) (d : Int) : Int :=
  daysBeforeYear y + daysBeforeMonth y m + d

/-! ### The datetime model -/

/-- Model of an optionally timezone-aware Python `datetime`:
calendar fields, microseconds since local midnight, and an optional
fixed UTC offset in microseconds. -/
structure PyDatetime where
  year : Int
  month : Nat
  day : Int
  todUs : Int
  tz : Option Int
  deriving Repr, DecidableEq

/-- The optional UTC offset lies strictly inside ±24 hours (the bound
CPython enforces on `tzinfo` offsets). -/
def tzWithinDay (o : Option Int) : Bool :=
  o.all fun off => decide (-usPerDay < off ∧ off < usPerDay)

/-- A `PyDatetime` the CPython constructor would accept: valid calendar
day and time of day inside the day. -/
def PyDatetime.Valid (t : PyDatetime) : Prop :=
  1 ≤ t.month ∧ t.month ≤ 12 ∧
  1 ≤ t.day ∧ t.day ≤ daysInMonth t.year t.month ∧
  0 ≤ t.todUs ∧ t.todUs < usPerDay ∧
  tzWithinDay t.tz = true

instance (t : PyDatetime) : Decidable t.Valid := by
  unfold PyDatetime.Valid
  exact inferInstance

/-- `date.toordinal` of the date part. -/
def PyDatetime.toOrdinal (t : PyDatetime) : Int :=
  ymdToOrd t.year t.month t.day

/-- The calendar day after `t` (date part only). -/
def nextDay (t : PyDatetime) : PyDatetime :=
  if t.day < daysInMonth t.year t.month then { t with day := t.day + 1 }
  else if t.month < 12 then { t with month := t.month + 1, day := 1 }
  else { t with year := t.year + 1, month := 1, day := 1 }

/-- The calendar day before `t` (date part only). -/
def prevDay (t : PyDatetime) : PyDatetime :=
  if 1 < t.day then { t with day := t.day - 1 }
  else if 1 < t.month then
    { t with month := t.month - 1, day := daysInMonth t.year (t.month - 1) }
  else { t with year := t.year - 1, month := 12, day := 31 }

/-- Shift the date part of `t` by `k` whole days. -/
def addDays (t : PyDatetime) (k : Int) : PyDatetime :=
  if 0 ≤ k then nextDay^[k.toNat] t else prevDay^[(-k).toNat] t

/-- Python `datetime + timedelta`: wall-clock addition of `delta`
microseconds, carrying whole days into the date part. -/
def addMicros (t : PyDatetime) (delta : Int) : PyDatetime :=
  let total := t.todUs + delta
  let shifted := addDays t (total / usPerDay)
  { shifted with todUs := total % usPerDay }

/-- Offset of an aware datetime; our code paths only read it on aware
values, `0` stands for the unused naive case. -/
def PyDatetime.off (t : PyDatetime) : Int := t.tz.getD 0

/-- Python `datetime.astimezone(tz)` for a fixed-offset zone: shift the
wall clock by the offset difference and install the new zone. -/
def astimezone (t : PyDatetime) (newOff : Int) : PyDatetime :=
  { addMicros t (newOff - t.off) with tz := some newOff }

/-- Python aware/naive-uniform `a - b` in microseconds: wall-clock
difference corrected by the offsets (for two aware operands this is the
difference of absolute instants; for two naive operands both offsets
read 0 and it is the wall difference, as in CPython). -/
def dtSub (a b : PyDatetime) : Int :=
  (a.toOrdinal - b.toOrdinal) * usPerDay + (a.todUs - b.todUs) - (a.off - b.off)

/-- Absolute instant of a datetime in microseconds (UTC timeline);
aware datetimes compare by this value in CPython. -/
def instantUs (t : PyDatetime) : Int :=
  t.toOrdinal * usPerDay + t.todUs - t.off

/-- `timedelta.total_seconds()`: microseconds as exact seconds. -/
def totalSeconds (td : Int) : ℚ := (td : ℚ) / 1000000

/-! ### Calendar lemmas -/

theorem daysInMonth_pos (y : Int) (m : Nat) (h1 : 1 ≤ m) (h12 : m ≤ 12) :
    1 ≤ daysInMonth y m := by
  interval_cases m <;> simp [daysInMonth] <;> split <;> omega

theorem toOrdinal_nextDay (t : PyDatetime) (h : t.Valid) :
    (nextDay t).toOrdinal = t.toOrdinal + 1 := by
  obtain ⟨hm1, hm12, hd1, hdm, -, -, -⟩ := h
  unfold nextDay
  split
  · simp [PyDatetime.toOrdinal, ymdToOrd]; ring
  · rename_i hlt
    split
    · rename_i hm
      have hdm' : t.day = daysInMonth t.year t.month := by omega
      simp only [PyDatetime.toOrdinal, ymdToOrd, hdm']
      have hm11 : t.month ≤ 11 := by omega
      interval_cases h : t.month <;>
        simp [daysBeforeMonth, daysBeforeMonthBase, daysInMonth] <;>
        split <;> omega
    · rename_i hm
      have hm' : t.month = 12 := by omega
      have h31 : daysInMonth t.year t.month = 31 := by
        rw [hm']; simp [daysInMonth]
      have hdm' : t.day = 31 := by omega
      simp only [PyDatetime.toOrdinal, ymdToOrd, hm', hdm']
      simp only [daysBeforeMonth, daysBeforeMonthBase, daysBeforeYear, isLeap]
      split <;> split <;>
        simp_all [decide_eq_true_iff] <;> omega

theorem valid_nextDay (t : PyDatetime) (h : t.Valid) : (nextDay t).Valid := by
  obtain ⟨hm1, hm12, hd1, hdm, ht0, ht1, htz⟩ := h
  unfold nextDay
  split
  · refine ⟨hm1, hm12, ?_, ?_, ht0, ht1, htz⟩ <;> dsimp only <;> omega
  · split
    · rename_i hm
      refine ⟨?_, ?_, ?_, ?_, ht0, ht1, htz⟩ <;> dsimp only
      · omega
      · omega
      · omega
      · exact daysInMonth_pos t.year (t.month + 1) (by omega) (by omega)
    · refine ⟨?_, ?_, ?_, ?_, ht0, ht1, htz⟩ <;> dsimp only <;>
        simp [daysInMonth]

theorem toOrdinal_prevDay (t : PyDatetime) (h : t.Valid) :
    (prevDay t).toOrdinal = t.toOrdinal - 1 := by
  obtain ⟨hm1, hm12, hd1, hdm, -, -, -⟩ := h
  unfold prevDay
  split
  · simp [PyDatetime.toOrdinal, ymdToOrd]; ring
  · rename_i hgt
    have hd1' : t.day = 1 := by omega
    split
    · rename_i hm
      have hm2 : 2 ≤ t.month := by omega
      simp only [PyDatetime.toOrdinal, ymdToOrd, hd1']
      interval_cases h : t.month <;>
        simp [daysBeforeMonth, daysBeforeMonthBase, daysInMonth] <;>
        split <;> omega
    · rename_i hm
      have hm' : t.month = 1 := by omega
      simp only [PyDatetime.toOrdinal, ymdToOrd, hm', hd1']
      simp only [daysBeforeMonth, daysBeforeMonthBase, daysBeforeYear, isLeap,
        daysInMonth]
      split <;> split <;>
        simp_all [decide_eq_true_iff] <;> omega

theorem valid_prevDay (t : PyDatetime) (h : t.Valid) : (prevDay t).Valid := by
  obtain ⟨hm1, hm12, hd1, hdm, ht0, ht1, htz⟩ := h
  unfold prevDay
  split
  · refine ⟨hm1, hm12, ?_, ?_, ht0, ht1, htz⟩ <;> dsimp only <;> omega
  · split
    · rename_i hm
      refine ⟨?_, ?_, ?_, ?_, ht0, ht1, htz⟩ <;> dsimp only
      · omega
      · omega
      · exact daysInMonth_pos t.year (t.month - 1) (by omega) (by omega)
      · exact le_refl _
    · refine ⟨?_, ?_, ?_, ?_, ht0, ht1, htz⟩ <;> dsimp only <;>
        simp [daysInMonth]

theorem nextDay_fields (t : PyDatetime) :
    (nextDay t).todUs = t.todUs ∧ (nextDay t).tz = t.tz := by
  unfold nextDay; split
  · exact ⟨rfl, rfl⟩
  · split <;> exact ⟨rfl, rfl⟩

theorem prevDay_fields (t : PyDatetime) :
    (prevDay t).todUs = t.todUs ∧ (prevDay t).tz = t.tz := by
  unfold prevDay; split
  · exact ⟨rfl, rfl⟩
  · split <;> exact ⟨rfl, rfl⟩

theorem iterate_nextDay_spec (n : Nat) (t : PyDatetime) (h : t.Valid) :
    (nextDay^[n] t).Valid ∧ (nextDay^[n] t).toOrdinal = t.toOrdinal + n ∧
    (nextDay^[n] t).todUs = t.todUs ∧ (nextDay^[n] t).tz = t.tz := by
  induction n with
  | zero => exact ⟨h, by simp, rfl, rfl⟩
  | succ n ih =>
    rw [Function.iterate_succ_apply']
    refine ⟨valid_nextDay _ ih.1, ?_, ?_, ?_⟩
    · rw [toOrdinal_nextDay _ ih.1, ih.2.1]; push_cast; ring
    · rw [(nextDay_fields _).1, ih.2.2.1]
    · rw [(nextDay_fields _).2, ih.2.2.2]

theorem iterate_prevDay_spec (n : Nat) (t : PyDatetime) (h : t.Valid) :
    (prevDay^[n] t).Valid ∧ (prevDay^[n] t).toOrdinal = t.toOrdinal - n ∧
    (prevDay^[n] t).todUs = t.todUs ∧ (prevDay^[n] t).tz = t.tz := by
  induction n with
  | zero => exact ⟨h, by simp, rfl, rfl⟩
  | succ n ih =>
    rw [Function.iterate_succ_apply']
    refine ⟨valid_prevDay _ ih.1, ?_, ?_, ?_⟩
    · rw [toOrdinal_prevDay _ ih.1, ih.2.1]; push_cast; ring
    · rw [(prevDay_fields _).1, ih.2.2.1]
    · rw [(prevDay_fields _).2, ih.2.2.2]

theorem addDays_spec (t : PyDatetime) (k : Int) (h : t.Valid) :
    (addDays t k).Valid ∧ (addDays t k).toOrdinal = t.toOrdinal + k ∧
    (addDays t k).todUs = t.todUs ∧ (addDays t k).tz = t.tz := by
  unfold addDays
  split
  · rename_i hk
    have := iterate_nextDay_spec k.toNat t h
    rw [Int.toNat_of_nonneg hk] at this
    exact this
  · rename_i hk
    have := iterate_prevDay_spec (-k).toNat t h
    rw [Int.toNat_of_nonneg (by omega)] at this
    refine ⟨this.1, ?_, this.2.2⟩
    rw [this.2.1]; ring

theorem usPerDay_pos : (0 : Int) < usPerDay := by decide

theorem addMicros_spec (t : PyDatetime) (delta : Int) (h : t.Valid) :
    (addMicros t delta).Valid ∧
    (addMicros t delta).toOrdinal * usPerDay + (addMicros t delta).todUs =
      t.toOrdinal * usPerDay + t.todUs + delta ∧
    (addMicros t delta).tz = t.tz := by
  unfold addMicros
  have hd := addDays_spec t ((t.todUs + delta) / usPerDay) h
  obtain ⟨⟨hm1, hm12, hd1, hdm, -, -, -⟩, hord, -, htz⟩ := hd
  have hmod0 : 0 ≤ (t.todUs + delta) % usPerDay :=
    Int.emod_nonneg _ (by decide)
  have hmod1 : (t.todUs + delta) % usPerDay < usPerDay :=
    Int.emod_lt_of_pos _ usPerDay_pos
  have heuc := Int.ediv_add_emod (t.todUs + delta) usPerDay
  have htzval : tzWithinDay t.tz = true := h.2.2.2.2.2.2
  refine ⟨⟨hm1, hm12, hd1, hdm, hmod0, hmod1, ?_⟩, ?_, ?_⟩
  · dsimp only; rw [htz]; exact htzval
  · show (addDays t ((t.todUs + delta) / usPerDay)).toOrdinal * usPerDay +
      (t.todUs + delta) % usPerDay = _
    rw [hord]
    simp only [usPerDay] at heuc ⊢
    omega
  · dsimp only; exact htz

theorem astimezone_spec (t : PyDatetime) (newOff : Int) (h : t.Valid)
    (hb : -usPerDay < newOff ∧ newOff < usPerDay) :
    (astimezone t newOff).Valid ∧
    instantUs (astimezone t newOff) = instantUs t ∧
    (astimezone t newOff).tz = some newOff := by
  unfold astimezone
  obtain ⟨hv, hwall, htz⟩ := addMicros_spec t (newOff - t.off) h
  obtain ⟨h1, h2, h3, h4, h5, h6, -⟩ := hv
  refine ⟨⟨h1, h2, h3, h4, h5, h6, ?_⟩, ?_, rfl⟩
  · simp [tzWithinDay]; omega
  · show (addMicros t (newOff - t.off)).toOrdinal * usPerDay +
      (addMicros t (newOff - t.off)).todUs - (Option.getD (some newOff) 0) = _
    rw [hwall]
    unfold instantUs
    simp [PyDatetime.off]
    ring

/-! ### Forecast engine (`google_ads_alert/forecast.py`) -/

/-- `DEFAULT_TZ = ZoneInfo("Asia/Tokyo")`: a fixed +9:00 offset. -/
def DEFAULT_TZ : Int := 9 * usPerHour

/-- `forecast._coerce_timezone`: fall back to the project default zone. -/
def coerce_timezone (tz : Option Int) : Int := tz.getD DEFAULT_TZ

/-- `forecast._localize_datetime`: attach `tz` to a naive datetime,
convert an aware one. -/
def localize_datetime (asOf : PyDatetime) (tz : Int) : PyDatetime :=
  match asOf.tz with
  | none => { asOf with tz := some tz }
  | some _ => astimezone asOf tz

/-- `forecast._day_bounds`: local midnight, next midnight and the
localized instant. -/
def day_bounds (asOf : PyDatetime) (tz : Int) :
    PyDatetime × PyDatetime × PyDatetime :=
  let localized := localize_datetime asOf tz
  let dayStart := { localized with todUs := 0 }
  let dayEnd := addMicros dayStart usPerDay
  (dayStart, dayEnd, localized)

/-- Input record of `calculate_daily_projection`. -/
structure DailyForecastInput where
  asOf : PyDatetime
  currentSpend : ℚ
  dailyBudget : Option ℚ := none
  timezone : Option Int := none
  deriving Repr, DecidableEq

/-- Result record of `calculate_daily_projection`. -/
structure DailyForecastResult where
  asOf : PyDatetime
  currentSpend : ℚ
  elapsed : Int
  dayDuration : Int
  projectedSpend : Option ℚ
  spendRatePerHour : Option ℚ
  budgetUtilization : Option ℚ
  deriving Repr, DecidableEq

/-- `forecast.calculate_daily_projection`, line for line. -/
def calculate_daily_projection (params : DailyForecastInput) :
    DailyForecastResult :=
  let tz := coerce_timezone params.timezone
  let bounds := day_bounds params.asOf tz
  let dayStart := bounds.1
  let dayEnd := bounds.2.1
  let localizedAsOf := bounds.2.2
  let elapsed := dtSub localizedAsOf dayStart
  let dayDuration := dtSub dayEnd dayStart
  let proj : Option ℚ × Option ℚ :=
    if totalSeconds elapsed ≤ 0 then (none, none)
    else
      let secondsElapsed := totalSeconds elapsed
      let ratePerSecond := params.currentSpend / secondsElapsed
      (some (ratePerSecond * totalSeconds dayDuration),
       some (ratePerSecond * 3600))
  let budgetUtilization : Option ℚ :=
    match params.dailyBudget with
    | none => none
    | some b => if b = 0 then none else some (params.currentSpend / b)
  { asOf := localizedAsOf,
    currentSpend := params.currentSpend,
    elapsed := elapsed,
    dayDuration := dayDuration,
    projectedSpend := proj.1,
    spendRatePerHour := proj.2,
    budgetUtilization := budgetUtilization }

/-- Python `max` on two ints, written out so the kernel can reduce it. -/
def pyMax (a b : Int) : Int := if a < b then b else a

/-- Input record of `calculate_monthly_pace`. -/
structure MonthlyPaceInput where
  asOf : PyDatetime
  monthToDateSpend : ℚ
  monthlyBudget : Option ℚ := none
  timezone : Option Int := none
  deriving Repr, DecidableEq

/-- Result record of `calculate_monthly_pace`. -/
structure MonthlyPaceResult where
  asOf : PyDatetime
  monthToDateSpend : ℚ
  averageDailySpend : ℚ
  projectedMonthEndSpend : ℚ
  daysElapsed : Int
  daysInMonth : Int
  budgetUtilization : Option ℚ
  deriving Repr, DecidableEq

/-- `forecast.calculate_monthly_pace`, line for line; `.date()`
subtraction is the difference of `toordinal` values. -/
def calculate_monthly_pace (params : MonthlyPaceInput) : MonthlyPaceResult :=
  let tz := coerce_timezone params.timezone
  let localized := localize_datetime params.asOf tz
  let firstOfMonth := { localized with day := 1, todUs := 0 }
  let nextMonth :=
    if localized.month = 12 then
      { localized with year := localized.year + 1, month := 1, day := 1 }
    else
      { localized with month := localized.month + 1, day := 1 }
  let daysElapsed : Int := (localized.toOrdinal - firstOfMonth.toOrdinal) + 1
  let daysInMonthV : Int := nextMonth.toOrdinal - firstOfMonth.toOrdinal
  let averageDailySpend := params.monthToDateSpend / ((pyMax daysElapsed 1 : Int) : ℚ)
  let projectedMonthEndSpend := averageDailySpend * (daysInMonthV : ℚ)
  let budgetUtilization : Option ℚ :=
    match params.monthlyBudget with
    | none => none
    | some b => if b = 0 then none else some (projectedMonthEndSpend / b)
  { asOf := localized,
    monthToDateSpend := params.monthToDateSpend,
    averageDailySpend := averageDailySpend,
    projectedMonthEndSpend := projectedMonthEndSpend,
    daysElapsed := daysElapsed,
    daysInMonth := daysInMonthV,
    budgetUtilization := budgetUtilization }

/-! ### Localization lemmas -/

theorem coerce_timezone_bounds (tzo : Option Int) (h : tzWithinDay tzo = true) :
    -usPerDay < coerce_timezone tzo ∧ coerce_timezone tzo < usPerDay := by
  cases tzo with
  | none => refine ⟨by decide, by decide⟩
  | some o =>
    simpa [tzWithinDay, coerce_timezone, decide_eq_true_iff] using h

theorem localize_spec (asOf : PyDatetime) (tz : Int) (h : asOf.Valid)
    (hb : -usPerDay < tz ∧ tz < usPerDay) :
    (localize_datetime asOf tz).Valid ∧ (localize_datetime asOf tz).tz = some tz := by
  rcases hc : asOf.tz with _ | o
  · obtain ⟨h1, h2, h3, h4, h5, h6, -⟩ := h
    simp only [localize_datetime, hc]
    refine ⟨⟨h1, h2, h3, h4, h5, h6, ?_⟩, trivial⟩
    simp [tzWithinDay]; omega
  · simp only [localize_datetime, hc]
    exact ⟨(astimezone_spec asOf tz h hb).1, (astimezone_spec asOf tz h hb).2.2⟩

theorem dayStart_valid (L : PyDatetime) (h : L.Valid) :
    ({ L with todUs := 0 } : PyDatetime).Valid := by
  obtain ⟨h1, h2, h3, h4, -, -, h7⟩ := h
  refine ⟨h1, h2, h3, h4, ?_, ?_, h7⟩ <;> dsimp only
  · exact le_refl 0
  · exact usPerDay_pos

theorem elapsed_eq_todUs (L : PyDatetime) :
    dtSub L { L with todUs := 0 } = L.todUs := by
  simp [dtSub, PyDatetime.toOrdinal, PyDatetime.off]

theorem dayDuration_eq_usPerDay (L : PyDatetime) (h : L.Valid) :
    dtSub (addMicros { L with todUs := 0 } usPerDay) { L with todUs := 0 } =
      usPerDay := by
  obtain ⟨-, hwall, htz⟩ :=
    addMicros_spec { L with todUs := 0 } usPerDay (dayStart_valid L h)
  unfold dtSub PyDatetime.off
  rw [htz]
  dsimp only at hwall ⊢
  linarith [hwall]

theorem totalSeconds_nonpos_iff (t : Int) : totalSeconds t ≤ 0 ↔ t ≤ 0 := by
  unfold totalSeconds
  rw [div_le_iff₀ (by norm_num : (0:ℚ) < 1000000)]
  simp

theorem totalSeconds_pos_iff (t : Int) : 0 < totalSeconds t ↔ 0 < t := by
  unfold totalSeconds
  rw [lt_div_iff₀ (by norm_num : (0:ℚ) < 1000000)]
  simp

/-- C1: `calculate_daily_projection` returns `projected_spend = None` and
`spend_rate_per_hour = None` exactly when the elapsed time since local
midnight (the `elapsed` field, i.e. the localized time of day) is `≤ 0`;
`day_duration` is always the full 24-hour span; and with positive elapsed
time it returns `projected_spend = current_spend * (day_duration seconds /
elapsed seconds)` and `spend_rate_per_hour = current_spend / elapsed
seconds * 3600`. -/
theorem calc_daily_elapsed (params : DailyForecastInput) :
    (calculate_daily_projection params).elapsed =
      (localize_datetime params.asOf (coerce_timezone params.timezone)).todUs :=
  elapsed_eq_todUs _

theorem calc_daily_dayDuration (params : DailyForecastInput)
    (hv : params.asOf.Valid) (htz : tzWithinDay params.timezone = true) :
    (calculate_daily_projection params).dayDuration = usPerDay :=
  dayDuration_eq_usPerDay _
    (localize_spec params.asOf (coerce_timezone params.timezone) hv
      (coerce_timezone_bounds params.timezone htz)).1

theorem calc_daily_projectedSpend (params : DailyForecastInput) :
    (calculate_daily_projection params).projectedSpend =
      if totalSeconds (calculate_daily_projection params).elapsed ≤ 0 then none
      else some (params.currentSpend /
        totalSeconds (calculate_daily_projection params).elapsed *
        totalSeconds (calculate_daily_projection params).dayDuration) := by
  simp only [calculate_daily_projection, day_bounds]
  split <;> rfl

theorem calc_daily_spendRate (params : DailyForecastInput) :
    (calculate_daily_projection params).spendRatePerHour =
      if totalSeconds (calculate_daily_projection params).elapsed ≤ 0 then none
      else some (params.currentSpend /
        totalSeconds (calculate_daily_projection params).elapsed * 3600) := by
  simp only [calculate_daily_projection, day_bounds]
  split <;> rfl

theorem daily_projection_spec (params : DailyForecastInput)
    (hv : params.asOf.Valid) (htz : tzWithinDay params.timezone = true) :
    ((calculate_daily_projection params).projectedSpend = none ∧
      (calculate_daily_projection params).spendRatePerHour = none ↔
        totalSeconds (calculate_daily_projection params).elapsed ≤ 0) ∧
    (calculate_daily_projection params).elapsed =
      (localize_datetime params.asOf (coerce_timezone params.timezone)).todUs ∧
    (calculate_daily_projection params).dayDuration = usPerDay ∧
    (0 < totalSeconds (calculate_daily_projection params).elapsed →
      (calculate_daily_projection params).projectedSpend =
        some (params.currentSpend *
          (totalSeconds (calculate_daily_projection params).dayDuration /
            totalSeconds (calculate_daily_projection params).elapsed)) ∧
      (calculate_daily_projection params).spendRatePerHour =
        some (params.currentSpend /
          totalSeconds (calculate_daily_projection params).elapsed * 3600)) := by
  have he := calc_daily_elapsed params
  have hd := calc_daily_dayDuration params hv htz
  have hproj := calc_daily_projectedSpend params
  have hrate := calc_daily_spendRate params
  refine ⟨?_, he, hd, ?_⟩
  · constructor
    · rintro ⟨hp, -⟩
      by_contra hc
      rw [hproj, if_neg hc] at hp
      exact Option.some_ne_none _ hp
    · intro hc
      rw [hproj, hrate, if_pos hc, if_pos hc]
      exact ⟨rfl, rfl⟩
  · intro hpos
    have hc : ¬ totalSeconds (calculate_daily_projection params).elapsed ≤ 0 := by
      linarith
    rw [hproj, hrate, if_neg hc, if_neg hc]
    refine ⟨?_, rfl⟩
    congr 1
    rw [div_mul_eq_mul_div, mul_div_assoc]

/-- Witness for C1 at noon Tokyo time on 2024-01-15. -/
theorem daily_projection_spec_witness :
    (calculate_daily_projection
      ⟨⟨2024, 1, 15, 12 * usPerHour, some DEFAULT_TZ⟩, 5000, some 10000, none⟩
      ).dayDuration = usPerDay :=
  (daily_projection_spec _ (by decide) (by decide)).2.2.1

theorem totalSeconds_le_iff (a b : Int) :
    totalSeconds a ≤ totalSeconds b ↔ a ≤ b := by
  unfold totalSeconds
  rw [div_le_div_iff_of_pos_right (by norm_num : (0:ℚ) < 1000000)]
  exact Int.cast_le

/-- C10: with nonnegative current spend and positive elapsed time, the
day-end projection is at least the spend observed so far, because the
elapsed time never exceeds the full day duration. -/
theorem daily_projection_monotone (params : DailyForecastInput)
    (hv : params.asOf.Valid) (htz : tzWithinDay params.timezone = true)
    (hs : 0 ≤ params.currentSpend)
    (hpos : 0 < totalSeconds (calculate_daily_projection params).elapsed) :
    ∀ p : ℚ, (calculate_daily_projection params).projectedSpend = some p →
      params.currentSpend ≤ p := by
  intro p hp
  have hLv := (localize_spec params.asOf (coerce_timezone params.timezone) hv
    (coerce_timezone_bounds params.timezone htz)).1
  have htod : (localize_datetime params.asOf (coerce_timezone params.timezone)).todUs
      < usPerDay := hLv.2.2.2.2.2.1
  have he := calc_daily_elapsed params
  have hd := calc_daily_dayDuration params hv htz
  have hproj := calc_daily_projectedSpend params
  rw [hproj, if_neg (by linarith)] at hp
  have hed : totalSeconds (calculate_daily_projection params).elapsed ≤
      totalSeconds (calculate_daily_projection params).dayDuration := by
    rw [totalSeconds_le_iff, he, hd]
    omega
  set e := totalSeconds (calculate_daily_projection params).elapsed with hedef
  set d := totalSeconds (calculate_daily_projection params).dayDuration with hddef
  have hp' : p = params.currentSpend * (d / e) := by
    have := hp
    injection this with h
    rw [← h, div_mul_eq_mul_div, mul_div_assoc]
  rw [hp']
  have h1 : (1:ℚ) ≤ d / e := (one_le_div hpos).mpr hed
  exact le_mul_of_one_le_right hs h1

/-- Witness for C10: spend 1200 at noon Tokyo time doubles to 2400 by
midnight, and the projection is indeed at least the current spend. -/
theorem daily_projection_monotone_witness :
    (calculate_daily_projection
      ⟨⟨2024, 1, 15, 12 * usPerHour, Option.none⟩, 1200, Option.none,
        Option.none⟩).projectedSpend = some 2400 ∧ (1200 : ℚ) ≤ 2400 := by
  have hpos : 0 < totalSeconds (calculate_daily_projection
      ⟨⟨2024, 1, 15, 12 * usPerHour, Option.none⟩, 1200, Option.none,
        Option.none⟩).elapsed := by
    rw [totalSeconds_pos_iff, calc_daily_elapsed]
    decide
  have hproj : (calculate_daily_projection
      ⟨⟨2024, 1, 15, 12 * usPerHour, Option.none⟩, 1200, Option.none,
        Option.none⟩).projectedSpend = some 2400 := by
    rw [calc_daily_projectedSpend, if_neg (by linarith),
      calc_daily_elapsed, calc_daily_dayDuration _ (by decide) (by decide)]
    norm_num [localize_datetime, coerce_timezone, DEFAULT_TZ, totalSeconds,
      usPerHour, usPerDay]
  exact ⟨hproj, daily_projection_monotone _ (by decide) (by decide)
    (by norm_num) hpos 2400 hproj⟩

/-! ### Monthly pace lemmas -/

theorem calc_monthly_daysElapsed (params : MonthlyPaceInput) :
    (calculate_monthly_pace params).daysElapsed =
      (localize_datetime params.asOf (coerce_timezone params.timezone)).day := by
  simp only [calculate_monthly_pace]
  simp [PyDatetime.toOrdinal, ymdToOrd]

theorem calc_monthly_daysInMonth (params : MonthlyPaceInput)
    (hv : params.asOf.Valid) (htz : tzWithinDay params.timezone = true) :
    (calculate_monthly_pace params).daysInMonth =
      daysInMonth (localize_datetime params.asOf (coerce_timezone params.timezone)).year
        (localize_datetime params.asOf (coerce_timezone params.timezone)).month := by
  have hLv := (localize_spec params.asOf (coerce_timezone params.timezone) hv
    (coerce_timezone_bounds params.timezone htz)).1
  obtain ⟨hm1, hm12, -, -, -, -, -⟩ := hLv
  simp only [calculate_monthly_pace]
  set L := localize_datetime params.asOf (coerce_timezone params.timezone) with hLdef
  split
  · rename_i h12
    simp only [PyDatetime.toOrdinal, ymdToOrd, h12]
    simp only [daysBeforeMonth, daysBeforeMonthBase, daysBeforeYear, daysInMonth,
      isLeap]
    split_ifs <;> simp_all [decide_eq_true_iff] <;> omega
  · rename_i h12
    have hm11 : L.month ≤ 11 := by omega
    simp only [PyDatetime.toOrdinal, ymdToOrd]
    interval_cases h : L.month <;>
      simp [daysBeforeMonth, daysBeforeMonthBase, daysInMonth] <;>
      split <;> omega

/-- C2: `calculate_monthly_pace` returns `days_elapsed` equal to the day
difference between the localized date and the first of its month plus one
(always at least 1), `days_in_month` equal to the length of the localized
month (December rolls over to January of the next year), an average daily
spend of `month_to_date_spend / max(days_elapsed, 1)` and a projection of
`average_daily_spend * days_in_month`. -/
theorem monthly_pace_spec (params : MonthlyPaceInput)
    (hv : params.asOf.Valid) (htz : tzWithinDay params.timezone = true) :
    (calculate_monthly_pace params).daysElapsed =
      ((localize_datetime params.asOf (coerce_timezone params.timezone)).toOrdinal -
        ({ localize_datetime params.asOf (coerce_timezone params.timezone) with
            day := 1, todUs := 0 } : PyDatetime).toOrdinal) + 1 ∧
    1 ≤ (calculate_monthly_pace params).daysElapsed ∧
    (calculate_monthly_pace params).daysInMonth =
      daysInMonth (localize_datetime params.asOf (coerce_timezone params.timezone)).year
        (localize_datetime params.asOf (coerce_timezone params.timezone)).month ∧
    (calculate_monthly_pace params).averageDailySpend =
      params.monthToDateSpend /
        ((pyMax (calculate_monthly_pace params).daysElapsed 1 : Int) : ℚ) ∧
    (calculate_monthly_pace params).projectedMonthEndSpend =
      (calculate_monthly_pace params).averageDailySpend *
        ((calculate_monthly_pace params).daysInMonth : ℚ) := by
  have hLv := (localize_spec params.asOf (coerce_timezone params.timezone) hv
    (coerce_timezone_bounds params.timezone htz)).1
  refine ⟨rfl, ?_, calc_monthly_daysInMonth params hv htz, rfl, rfl⟩
  rw [calc_monthly_daysElapsed]
  exact hLv.2.2.1

/-- Witness for C2: the December→January example of the spec,
`2023-12-31T23:00` Tokyo with month-to-date spend 310000. -/
theorem monthly_pace_spec_witness :
    1 ≤ (calculate_monthly_pace
      ⟨⟨2023, 12, 31, 23 * usPerHour, some DEFAULT_TZ⟩, 310000, none, none⟩
      ).daysElapsed ∧
    (calculate_monthly_pace
      ⟨⟨2023, 12, 31, 23 * usPerHour, some DEFAULT_TZ⟩, 310000, none, none⟩
      ).daysElapsed = 31 ∧
    (calculate_monthly_pace
      ⟨⟨2023, 12, 31, 23 * usPerHour, some DEFAULT_TZ⟩, 310000, none, none⟩
      ).daysInMonth = 31 ∧
    (calculate_monthly_pace
      ⟨⟨2023, 12, 31, 23 * usPerHour, some DEFAULT_TZ⟩, 310000, none, none⟩
      ).projectedMonthEndSpend = 310000 := by
  refine ⟨(monthly_pace_spec _ (by decide) (by decide)).2.1, by decide, by decide, ?_⟩
  have h1 : (calculate_monthly_pace
      ⟨⟨2023, 12, 31, 23 * usPerHour, some DEFAULT_TZ⟩, 310000, none, none⟩
      ).projectedMonthEndSpend =
      (310000 : ℚ) / ((pyMax 31 1 : Int) : ℚ) * ((31 : Int) : ℚ) := rfl
  rw [h1]
  norm_num [pyMax]

/-! ### Schedule generator (`google_ads_alert/schedule.py`) -/

/-- One constructor per distinct `ValueError` raised by `schedule.py`. -/
inductive SchedError where
  | invalidHour
  | invalidMinute
  | invalidRunCount
  | endBeforeStart
  deriving Repr, DecidableEq

/-- Model of a Python `datetime.date`. -/
structure PyDate where
  year : Int
  month : Nat
  day : Int
  deriving Repr, DecidableEq

/-- A calendar day the CPython `date` constructor would accept. -/
def PyDate.Valid (d : PyDate) : Prop :=
  1 ≤ d.month ∧ d.month ≤ 12 ∧ 1 ≤ d.day ∧ d.day ≤ daysInMonth d.year d.month

instance (d : PyDate) : Decidable d.Valid := by
  unfold PyDate.Valid
  exact inferInstance

/-- Python schedule configuration record with its default values. -/
structure DailyScheduleConfig where
  timezone : Option Int := none
  startHour : Int := 8
  startMinute : Int := 0
  endHour : Int := 20
  endMinute : Int := 0
  runCount : Int := 3
  deriving Repr, DecidableEq

/-- `schedule._validate_hour`. -/
def validate_hour (hour : Int) : Except SchedError Unit :=
  if ¬ (0 ≤ hour ∧ hour ≤ 23) then .error .invalidHour else .ok ()

/-- `schedule._validate_minute`. -/
def validate_minute (minute : Int) : Except SchedError Unit :=
  if ¬ (0 ≤ minute ∧ minute ≤ 59) then .error .invalidMinute else .ok ()

/-- The aware anchor datetime at `hour:minute` of `target` in `tz`. -/
def anchorDt (target : PyDate) (hour minute tz : Int) : PyDatetime :=
  ⟨target.year, target.month, target.day,
    hour * usPerHour + minute * 60000000, some tz⟩

/-- `schedule._build_anchor_datetime`: validate, then build the aware
anchor at `hour:minute` of `target` in `tz`. -/
def build_anchor_datetime (target : PyDate) (hour minute : Int) (tz : Int) :
    Except SchedError PyDatetime :=
  match validate_hour hour with
  | .error e => .error e
  | .ok _ =>
    match validate_minute minute with
    | .error e => .error e
    | .ok _ => .ok (anchorDt target hour minute tz)

/-- Round a rational to the nearest integer, ties to even: the rounding
CPython `timedelta` applies to fractional microseconds. -/
def roundHalfEven (q : ℚ) : Int :=
  let f := ⌊q⌋
  let r := q - f
  if r < 1/2 then f
  else if 1/2 < r then f + 1
  else if f % 2 = 0 then f else f + 1

/-- Python `timedelta(seconds=x)` stored as whole microseconds. -/
def timedeltaOfSeconds (x : ℚ) : Int := roundHalfEven (x * 1000000)

/-- Python `schedule[-1] = end_dt` on a freshly built list. -/
def setLast : List PyDatetime → PyDatetime → List PyDatetime
  | [], _ => []
  | [_], x => [x]
  | a :: b :: rest, x => a :: setLast (b :: rest) x

/-- `schedule.generate_daily_schedule`, with the same control flow:
start anchor is validated and built first, `run_count` is checked, a
single run returns only the start anchor, otherwise the end anchor is
validated, ordered, and the interpolated schedule is produced with its
last element overwritten by the end anchor. -/
def generate_daily_schedule (target : PyDate) (cfg : DailyScheduleConfig) :
    Except SchedError (List PyDatetime) :=
  let tz := coerce_timezone cfg.timezone
  match build_anchor_datetime target cfg.startHour cfg.startMinute tz with
  | .error e => .error e
  | .ok startDt =>
    if cfg.runCount ≤ 0 then .error .invalidRunCount
    else if cfg.runCount = 1 then .ok [startDt]
    else
      match build_anchor_datetime target cfg.endHour cfg.endMinute tz with
      | .error e => .error e
      | .ok endDt =>
        if instantUs endDt < instantUs startDt then .error .endBeforeStart
        else
          let intervalSeconds := totalSeconds (dtSub endDt startDt)
          if cfg.runCount = 2 then .ok [startDt, endDt]
          else
            let step := intervalSeconds / ((cfg.runCount - 1 : Int) : ℚ)
            let schedule := (List.range cfg.runCount.toNat).map
              (fun (i : Nat) => addMicros startDt (timedeltaOfSeconds (step * (i : ℚ))))
            .ok (setLast schedule endDt)

/-- `schedule._zoneinfo_from_datetime` in the fixed-offset model: the
zone of an aware datetime, `none` for a naive one. -/
def zoneinfo_from_datetime (dt : PyDatetime) : Option Int := dt.tz

/-- The `for candidate in schedule` loop picking the first aware zone. -/
def firstScheduleTz : List PyDatetime → Option Int
  | [] => none
  | e :: rest =>
    match zoneinfo_from_datetime e with
    | some o => some o
    | none => firstScheduleTz rest

/-- Timezone resolution of `find_next_run_datetime`: explicit override,
else first aware schedule entry, else the zone of `now`, else default. -/
def resolve_next_run_tz (now : PyDatetime) (schedule : List PyDatetime)
    (timezone : Option Int) : Int :=
  let tzCandidate :=
    match timezone with
    | some o => some o
    | none => firstScheduleTz schedule
  let tzCandidate2 :=
    match tzCandidate with
    | some o => some o
    | none => zoneinfo_from_datetime now
  coerce_timezone tzCandidate2

/-- Stable insertion of `x` into a list sorted by instant. -/
def insertDt (x : PyDatetime) : List PyDatetime → List PyDatetime
  | [] => [x]
  | y :: ys =>
    if instantUs x ≤ instantUs y then x :: y :: ys else y :: insertDt x ys

/-- Python `sorted` on aware datetimes (ascending by instant). -/
def sortDt : List PyDatetime → List PyDatetime
  | [] => []
  | x :: xs => insertDt x (sortDt xs)

/-- The `for run in normalized_schedule` loop: first entry at or after
`now`. -/
def firstGE (now : PyDatetime) : List PyDatetime → Option PyDatetime
  | [] => none
  | r :: rest =>
    if instantUs now ≤ instantUs r then some r else firstGE now rest

/-- `schedule.find_next_run_datetime`, line for line. -/
def find_next_run_datetime (now : PyDatetime) (schedule : List PyDatetime)
    (timezone : Option Int := none) : Option PyDatetime :=
  if schedule.isEmpty then none
  else
    let tz := resolve_next_run_tz now schedule timezone
    let localizedNow := localize_datetime now tz
    let normalizedSchedule := sortDt (schedule.map (fun e => localize_datetime e tz))
    firstGE localizedNow normalizedSchedule

/-! ### Sorting lemmas for the next-run search -/

theorem mem_insertDt (a x : PyDatetime) (l : List PyDatetime) :
    a ∈ insertDt x l ↔ a = x ∨ a ∈ l := by
  induction l with
  | nil => simp [insertDt]
  | cons y ys ih =>
    unfold insertDt
    split
    · simp
    · simp only [List.mem_cons, ih]
      tauto

/-- Lists ascending by instant. -/
def SortedInst (l : List PyDatetime) : Prop :=
  l.Pairwise (fun u v => instantUs u ≤ instantUs v)

theorem sorted_insertDt (x : PyDatetime) (l : List PyDatetime)
    (h : SortedInst l) : SortedInst (insertDt x l) := by
  induction l with
  | nil => simp [insertDt, SortedInst]
  | cons y ys ih =>
    unfold insertDt
    rw [SortedInst, List.pairwise_cons] at h
    split
    · rename_i hxy
      refine List.Pairwise.cons ?_ (List.Pairwise.cons h.1 h.2)
      intro b hb
      rcases List.mem_cons.mp hb with hb | hb
      · exact hb ▸ hxy
      · exact le_trans hxy (h.1 b hb)
    · rename_i hxy
      refine List.Pairwise.cons ?_ (ih h.2)
      intro b hb
      rcases (mem_insertDt b x ys).mp hb with hb | hb
      · exact hb ▸ le_of_not_le hxy
      · exact h.1 b hb

theorem sorted_sortDt (l : List PyDatetime) : SortedInst (sortDt l) := by
  induction l with
  | nil => exact List.Pairwise.nil
  | cons x xs ih => exact sorted_insertDt x (sortDt xs) ih

theorem mem_sortDt (a : PyDatetime) (l : List PyDatetime) :
    a ∈ sortDt l ↔ a ∈ l := by
  induction l with
  | nil => simp [sortDt]
  | cons x xs ih => simp [sortDt, mem_insertDt, ih]

theorem firstGE_eq_none_iff (now : PyDatetime) (l : List PyDatetime) :
    firstGE now l = none ↔ ∀ r ∈ l, instantUs r < instantUs now := by
  induction l with
  | nil => simp [firstGE]
  | cons y ys ih =>
    unfold firstGE
    split
    · rename_i hy
      simp only [List.mem_cons]
      constructor
      · intro h; exact absurd h (by simp)
      · intro h
        exact absurd (h y (Or.inl rfl)) (by omega)
    · rename_i hy
      simp only [ih, List.mem_cons]
      constructor
      · intro h r hr
        rcases hr with hr | hr
        · subst hr; omega
        · exact h r hr
      · intro h r hr
        exact h r (Or.inr hr)

theorem firstGE_eq_some (now : PyDatetime) (l : List PyDatetime)
    (hs : SortedInst l) (r : PyDatetime) (h : firstGE now l = some r) :
    r ∈ l ∧ instantUs now ≤ instantUs r ∧
      ∀ e ∈ l, instantUs now ≤ instantUs e → instantUs r ≤ instantUs e := by
  induction l with
  | nil => simp [firstGE] at h
  | cons y ys ih =>
    rw [SortedInst, List.pairwise_cons] at hs
    unfold firstGE at h
    split at h
    · rename_i hy
      obtain rfl : y = r := by injection h
      refine ⟨List.mem_cons_self _ _, hy, ?_⟩
      intro e he hee
      rcases List.mem_cons.mp he with he | he
      · exact he ▸ le_refl _
      · exact hs.1 e he
    · rename_i hy
      obtain ⟨h1, h2, h3⟩ := ih hs.2 h
      refine ⟨List.mem_cons_of_mem _ h1, h2, ?_⟩
      intro e he hee
      rcases List.mem_cons.mp he with he | he
      · subst he; omega
      · exact h3 e he hee

/-- C7: `find_next_run_datetime` returns `None` exactly when `now` is
strictly after every entry once `now` and the entries are normalized
into the resolved timezone; otherwise it returns a normalized entry at
or after `now` that is no later than any other normalized entry at or
after `now` (equality counts as upcoming). -/
theorem find_next_run_spec (now : PyDatetime) (schedule : List PyDatetime)
    (tzo : Option Int) :
    (find_next_run_datetime now schedule tzo = none ↔
      ∀ e ∈ schedule,
        instantUs (localize_datetime e (resolve_next_run_tz now schedule tzo)) <
          instantUs (localize_datetime now (resolve_next_run_tz now schedule tzo))) ∧
    ∀ r, find_next_run_datetime now schedule tzo = some r →
      (∃ e ∈ schedule,
        r = localize_datetime e (resolve_next_run_tz now schedule tzo)) ∧
      instantUs (localize_datetime now (resolve_next_run_tz now schedule tzo)) ≤
        instantUs r ∧
      ∀ e ∈ schedule,
        instantUs (localize_datetime now (resolve_next_run_tz now schedule tzo)) ≤
          instantUs (localize_datetime e (resolve_next_run_tz now schedule tzo)) →
        instantUs r ≤
          instantUs (localize_datetime e (resolve_next_run_tz now schedule tzo)) := by
  unfold find_next_run_datetime
  split
  · rename_i hemp
    have : schedule = [] := List.isEmpty_iff.mp hemp
    subst this
    simp
  · rename_i hemp
    set tz := resolve_next_run_tz now schedule tzo with htz
    constructor
    · rw [firstGE_eq_none_iff]
      constructor
      · intro h e he
        exact h (localize_datetime e tz)
          ((mem_sortDt _ _).mpr (List.mem_map_of_mem _ he))
      · intro h r hr
        obtain ⟨e, he, rfl⟩ := List.mem_map.mp ((mem_sortDt _ _).mp hr)
        exact h e he
    · intro r hr
      obtain ⟨h1, h2, h3⟩ :=
        firstGE_eq_some _ _ (sorted_sortDt _) r hr
      obtain ⟨e, he, heq⟩ := List.mem_map.mp ((mem_sortDt _ _).mp h1)
      refine ⟨⟨e, he, heq.symm⟩, h2, ?_⟩
      intro e' he' hge
      exact h3 (localize_datetime e' tz)
        ((mem_sortDt _ _).mpr (List.mem_map_of_mem _ he')) hge

/-! ### Schedule generation: validation behaviour (claim C5) -/

theorem anchor_lt_iff (target : PyDate) (h1 m1 h2 m2 tz : Int) :
    instantUs (anchorDt target h2 m2 tz) < instantUs (anchorDt target h1 m1 tz) ↔
      h2 * 60 + m2 < h1 * 60 + m1 := by
  unfold instantUs anchorDt PyDatetime.toOrdinal PyDatetime.off ymdToOrd usPerHour
  dsimp only
  omega


/-- Amended C5: `generate_daily_schedule` raises exactly when the start
hour or minute is out of range, or `run_count ≤ 0`, or `run_count ≥ 2`
and the end hour or minute is out of range or the end anchor is earlier
than the start anchor; with `run_count = 1` the end fields are never
validated, and an accepted configuration raises nothing. -/
theorem generate_daily_schedule_error_iff (target : PyDate)
    (cfg : DailyScheduleConfig) :
    (∃ e, generate_daily_schedule target cfg = .error e) ↔
      (¬ (0 ≤ cfg.startHour ∧ cfg.startHour ≤ 23) ∨
       ¬ (0 ≤ cfg.startMinute ∧ cfg.startMinute ≤ 59) ∨
       cfg.runCount ≤ 0 ∨
       (2 ≤ cfg.runCount ∧
         (¬ (0 ≤ cfg.endHour ∧ cfg.endHour ≤ 23) ∨
          ¬ (0 ≤ cfg.endMinute ∧ cfg.endMinute ≤ 59) ∨
          cfg.endHour * 60 + cfg.endMinute <
            cfg.startHour * 60 + cfg.startMinute))) := by
  by_cases h1 : 0 ≤ cfg.startHour ∧ cfg.startHour ≤ 23
  case neg =>
    simp [generate_daily_schedule, build_anchor_datetime, validate_hour, h1]
  case pos =>
  by_cases h2 : 0 ≤ cfg.startMinute ∧ cfg.startMinute ≤ 59
  case neg =>
    simp [generate_daily_schedule, build_anchor_datetime, validate_hour,
      validate_minute, h1, h2]
  case pos =>
  by_cases h3 : cfg.runCount ≤ 0
  case pos =>
    simp [generate_daily_schedule, build_anchor_datetime, validate_hour,
      validate_minute, h1, h2, h3]
  case neg =>
  by_cases h4 : cfg.runCount = 1
  case pos =>
    simp [generate_daily_schedule, build_anchor_datetime, validate_hour,
      validate_minute, h1, h2, h3, h4]
  case neg =>
  have h5 : 2 ≤ cfg.runCount := by omega
  by_cases h6 : 0 ≤ cfg.endHour ∧ cfg.endHour ≤ 23
  case neg =>
    simp [generate_daily_schedule, build_anchor_datetime, validate_hour,
      validate_minute, h1, h2, h3, h4, h5, h6]
  case pos =>
  by_cases h7 : 0 ≤ cfg.endMinute ∧ cfg.endMinute ≤ 59
  case neg =>
    simp [generate_daily_schedule, build_anchor_datetime, validate_hour,
      validate_minute, h1, h2, h3, h4, h5, h6, h7]
  case pos =>
  by_cases h8 : cfg.endHour * 60 + cfg.endMinute <
      cfg.startHour * 60 + cfg.startMinute
  case pos =>
    have h8' := (anchor_lt_iff target cfg.startHour cfg.startMinute cfg.endHour
      cfg.endMinute (coerce_timezone cfg.timezone)).mpr h8
    simp [generate_daily_schedule, build_anchor_datetime, validate_hour,
      validate_minute, h1, h2, h3, h4, h5, h6, h7, h8, h8']
  case neg =>
    have h8' : ¬ instantUs (anchorDt target cfg.endHour cfg.endMinute
        (coerce_timezone cfg.timezone)) <
        instantUs (anchorDt target cfg.startHour cfg.startMinute
          (coerce_timezone cfg.timezone)) := by
      rw [anchor_lt_iff]
      exact h8
    simp only [generate_daily_schedule, build_anchor_datetime, validate_hour,
      validate_minute, if_neg (not_not_intro h1), if_neg (not_not_intro h2),
      if_neg h3, if_neg h4, if_neg (not_not_intro h6), if_neg (not_not_intro h7),
      if_neg h8']
    constructor
    · rintro ⟨e, he⟩
      split at he <;> exact absurd he (by simp)
    · intro hd
      rcases hd with hd | hd | hd | ⟨-, hd | hd | hd⟩ <;> tauto

/-- Counterexample to C5 as stated: with `run_count = 1` an out-of-range
`end_hour = 24` raises no error — the single-run path returns the start
anchor before the end anchor is ever validated. -/
theorem generate_daily_schedule_end_validation_cex :
    generate_daily_schedule ⟨2024, 1, 5⟩
      { timezone := none, startHour := 8, startMinute := 0, endHour := 24,
        endMinute := 0, runCount := 1 } =
      .ok [anchorDt ⟨2024, 1, 5⟩ 8 0 DEFAULT_TZ] := by
  rfl

/-! ### Schedule generation: the final anchor (claim C6) -/

theorem setLast_length (l : List PyDatetime) (x : PyDatetime) :
    (setLast l x).length = l.length := by
  induction l with
  | nil => rfl
  | cons a rest ih =>
    cases rest with
    | nil => rfl
    | cons b rest2 =>
      show (a :: setLast (b :: rest2) x).length = _
      simp [ih]

theorem setLast_getLast (l : List PyDatetime) (x : PyDatetime) (h : l ≠ []) :
    (setLast l x).getLast? = some x := by
  induction l with
  | nil => exact absurd rfl h
  | cons a rest ih =>
    cases rest with
    | nil => rfl
    | cons b rest2 =>
      show (a :: setLast (b :: rest2) x).getLast? = some x
      obtain ⟨hh, tt, heq⟩ : ∃ hh tt, setLast (b :: rest2) x = hh :: tt := by
        cases rest2 <;> exact ⟨_, _, rfl⟩
      rw [heq, List.getLast?_cons_cons, ← heq]
      exact ih (by simp)

theorem setLast_getElem (l : List PyDatetime) (x : PyDatetime) (i : Nat)
    (h : i + 1 < l.length) : (setLast l x)[i]? = l[i]? := by
  induction l generalizing i with
  | nil => rfl
  | cons a rest ih =>
    cases rest with
    | nil => simp at h
    | cons b rest2 =>
      show (a :: setLast (b :: rest2) x)[i]? = _
      cases i with
      | zero => simp
      | succ j =>
        simp only [List.getElem?_cons_succ]
        exact ih j (by simpa using h)

/-- Counterexample to C6 as stated: with `run_count = 1` the single
returned entry is the start anchor, not the end anchor. -/
theorem schedule_last_entry_cex :
    generate_daily_schedule ⟨2024, 1, 5⟩
      { timezone := none, startHour := 8, startMinute := 0, endHour := 20,
        endMinute := 0, runCount := 1 } =
      .ok [anchorDt ⟨2024, 1, 5⟩ 8 0 DEFAULT_TZ] ∧
    anchorDt ⟨2024, 1, 5⟩ 8 0 DEFAULT_TZ ≠
      anchorDt ⟨2024, 1, 5⟩ 20 0 DEFAULT_TZ := by
  exact ⟨rfl, by decide⟩

/-- Amended C6: whenever `run_count ≥ 2` and `generate_daily_schedule`
succeeds, the last entry of the returned list is exactly the end anchor
at `end_hour:end_minute` of the target date in the configured zone. -/
theorem build_anchor_ok (target : PyDate) (h m tz : Int) (v : PyDatetime)
    (hv : build_anchor_datetime target h m tz = .ok v) :
    v = anchorDt target h m tz := by
  unfold build_anchor_datetime at hv
  split at hv
  · simp at hv
  · split at hv
    · simp at hv
    · injection hv with hv
      exact hv.symm

theorem schedule_last_is_end_anchor (target : PyDate)
    (cfg : DailyScheduleConfig) (h2 : 2 ≤ cfg.runCount)
    (l : List PyDatetime)
    (hok : generate_daily_schedule target cfg = .ok l) :
    l.getLast? = some (anchorDt target cfg.endHour cfg.endMinute
      (coerce_timezone cfg.timezone)) := by
  simp only [generate_daily_schedule] at hok
  rcases hsa : build_anchor_datetime target cfg.startHour cfg.startMinute
      (coerce_timezone cfg.timezone) with e | startDt <;>
    rw [hsa] at hok
  · simp at hok
  · dsimp only at hok
    rw [if_neg (by omega : ¬ cfg.runCount ≤ 0),
      if_neg (by omega : ¬ cfg.runCount = 1)] at hok
    rcases hse : build_anchor_datetime target cfg.endHour cfg.endMinute
        (coerce_timezone cfg.timezone) with e | endDt <;>
      rw [hse] at hok
    · simp at hok
    · dsimp only at hok
      have hend := build_anchor_ok target cfg.endHour cfg.endMinute
        (coerce_timezone cfg.timezone) endDt hse
      split_ifs at hok with hlt hc2
      · injection hok with hok
        subst hok
        rw [hend]
        simp
      · injection hok with hok
        subst hok
        rw [← hend]
        apply setLast_getLast
        have hpos : 0 < cfg.runCount.toNat := by omega
        simp only [ne_eq, List.map_eq_nil_iff, List.range_eq_nil]
        omega

/-! ### Schedule interpolation (claim C9) -/

theorem dtSub_eq_instant_sub (a b : PyDatetime) :
    dtSub a b = instantUs a - instantUs b := by
  unfold dtSub instantUs
  ring

theorem instant_addMicros (t : PyDatetime) (x : Int) (h : t.Valid) :
    instantUs (addMicros t x) = instantUs t + x := by
  obtain ⟨-, hwall, htz⟩ := addMicros_spec t x h
  unfold instantUs PyDatetime.off
  rw [htz]
  omega

theorem roundHalfEven_intCast (n : Int) : roundHalfEven (n : ℚ) = n := by
  unfold roundHalfEven
  rw [Int.floor_intCast]
  norm_num

theorem addMicros_zero (t : PyDatetime) (h : t.Valid) : addMicros t 0 = t := by
  obtain ⟨-, -, -, -, h5, h6, -⟩ := h
  unfold addMicros addDays
  simp only [add_zero, Int.ediv_eq_zero_of_lt h5 h6, Int.emod_eq_of_lt h5 h6,
    le_refl, if_pos, Int.toNat_zero, Function.iterate_zero, id]

theorem timedelta_step (interval : Int) (n : Int) (hn : 0 < n) (K : Int)
    (hK : interval = n * K) (i : Nat) :
    timedeltaOfSeconds (totalSeconds interval / (n : ℚ) * (i : ℚ)) = K * i := by
  unfold timedeltaOfSeconds totalSeconds
  have hn' : (n : ℚ) ≠ 0 := Int.cast_ne_zero.mpr (by omega)
  have : (interval : ℚ) / 1000000 / (n : ℚ) * (i : ℚ) * 1000000 =
      ((K * i : Int) : ℚ) := by
    rw [hK]
    push_cast
    field_simp
    ring
  rw [this, roundHalfEven_intCast]

theorem anchorDt_valid (target : PyDate) (h m tz : Int) (htv : target.Valid)
    (hh : 0 ≤ h ∧ h ≤ 23) (hm : 0 ≤ m ∧ m ≤ 59)
    (htz : -usPerDay < tz ∧ tz < usPerDay) :
    (anchorDt target h m tz).Valid := by
  obtain ⟨t1, t2, t3, t4⟩ := htv
  refine ⟨t1, t2, t3, t4, ?_, ?_, ?_⟩ <;> dsimp only [anchorDt]
  · unfold usPerHour; omega
  · unfold usPerHour usPerDay; omega
  · simp [tzWithinDay]; omega

theorem setLast_getElem_last (l : List PyDatetime) (x : PyDatetime)
    (h : l ≠ []) : (setLast l x)[l.length - 1]? = some x := by
  induction l with
  | nil => exact absurd rfl h
  | cons a rest ih =>
    cases rest with
    | nil => rfl
    | cons b rest2 =>
      have hlen : (a :: b :: rest2).length - 1 = rest2.length + 1 := by simp
      rw [hlen]
      show (a :: setLast (b :: rest2) x)[rest2.length + 1]? = some x
      rw [List.getElem?_cons_succ]
      have := ih (by simp)
      simpa using this

/-- Amended C9: for an accepted configuration with `run_count > 2`,
`generate_daily_schedule` succeeds with exactly `run_count` entries; the
first is the start anchor, entry `i` below the last is the start anchor
plus `step * i` seconds rounded to whole microseconds, the last is
forced to the end anchor, and whenever the microsecond interval is
divisible by `run_count - 1` all consecutive deltas equal the exact step
`K = interval / (run_count - 1)`. -/
theorem schedule_interpolation_spec (target : PyDate)
    (cfg : DailyScheduleConfig)
    (htv : target.Valid) (htzb : tzWithinDay cfg.timezone = true)
    (hrc : 2 < cfg.runCount)
    (hsh : 0 ≤ cfg.startHour ∧ cfg.startHour ≤ 23)
    (hsm : 0 ≤ cfg.startMinute ∧ cfg.startMinute ≤ 59)
    (heh : 0 ≤ cfg.endHour ∧ cfg.endHour ≤ 23)
    (hem : 0 ≤ cfg.endMinute ∧ cfg.endMinute ≤ 59)
    (hord : cfg.startHour * 60 + cfg.startMinute ≤
      cfg.endHour * 60 + cfg.endMinute) :
    ∃ l, generate_daily_schedule target cfg = .ok l ∧
      l.length = cfg.runCount.toNat ∧
      l[0]? = some (anchorDt target cfg.startHour cfg.startMinute
        (coerce_timezone cfg.timezone)) ∧
      (∀ i : Nat, i + 1 < cfg.runCount.toNat →
        l[i]? = some (addMicros
          (anchorDt target cfg.startHour cfg.startMinute
            (coerce_timezone cfg.timezone))
          (timedeltaOfSeconds
            (totalSeconds (dtSub
                (anchorDt target cfg.endHour cfg.endMinute
                  (coerce_timezone cfg.timezone))
                (anchorDt target cfg.startHour cfg.startMinute
                  (coerce_timezone cfg.timezone))) /
              ((cfg.runCount - 1 : Int) : ℚ) * (i : ℚ))))) ∧
      l.getLast? = some (anchorDt target cfg.endHour cfg.endMinute
        (coerce_timezone cfg.timezone)) ∧
      ∀ K : Int,
        dtSub (anchorDt target cfg.endHour cfg.endMinute
            (coerce_timezone cfg.timezone))
          (anchorDt target cfg.startHour cfg.startMinute
            (coerce_timezone cfg.timezone)) = (cfg.runCount - 1) * K →
        ∀ i : Nat, ∀ u v, l[i]? = some u → l[i + 1]? = some v →
          dtSub v u = K := by
  have hbtz := coerce_timezone_bounds cfg.timezone htzb
  set tz := coerce_timezone cfg.timezone with htzdef
  set sA := anchorDt target cfg.startHour cfg.startMinute tz with hsAdef
  set eA := anchorDt target cfg.endHour cfg.endMinute tz with heAdef
  have hsv : sA.Valid := anchorDt_valid target _ _ _ htv hsh hsm hbtz
  have hev : eA.Valid := anchorDt_valid target _ _ _ htv heh hem hbtz
  set n := cfg.runCount.toNat with hndef
  have hn3 : 3 ≤ n := by omega
  have hncast : (n : Int) = cfg.runCount := Int.toNat_of_nonneg (by omega)
  set f : Nat → PyDatetime := fun i => addMicros sA
    (timedeltaOfSeconds (totalSeconds (dtSub eA sA) /
      ((cfg.runCount - 1 : Int) : ℚ) * (i : ℚ))) with hfdef
  have hok : generate_daily_schedule target cfg =
      .ok (setLast ((List.range n).map f) eA) := by
    simp only [generate_daily_schedule]
    have h1 : build_anchor_datetime target cfg.startHour cfg.startMinute tz =
        .ok sA := by
      simp [build_anchor_datetime, validate_hour, validate_minute,
        hsh.1, hsh.2, hsm.1, hsm.2, hsAdef]
    have h2 : build_anchor_datetime target cfg.endHour cfg.endMinute tz =
        .ok eA := by
      simp [build_anchor_datetime, validate_hour, validate_minute,
        heh.1, heh.2, hem.1, hem.2, heAdef]
    rw [← htzdef, h1]
    dsimp only
    rw [if_neg (by omega : ¬ cfg.runCount ≤ 0),
      if_neg (by omega : ¬ cfg.runCount = 1), h2]
    dsimp only
    rw [if_neg (by rw [anchor_lt_iff]; omega),
      if_neg (by omega : ¬ cfg.runCount = 2)]
  have hlen : (setLast ((List.range n).map f) eA).length = n := by
    rw [setLast_length, List.length_map, List.length_range]
  have hne : (List.range n).map f ≠ [] := by
    simp only [ne_eq, List.map_eq_nil_iff, List.range_eq_nil]
    omega
  have hentry : ∀ i : Nat, i + 1 < n →
      (setLast ((List.range n).map f) eA)[i]? = some (f i) := by
    intro i hi
    rw [setLast_getElem _ _ i (by rw [List.length_map, List.length_range]; omega)]
    have hilt : i < n := by omega
    simp [List.getElem?_map, List.getElem?_range, hilt]
  have hzero : f 0 = sA := by
    have : timedeltaOfSeconds (totalSeconds (dtSub eA sA) /
        ((cfg.runCount - 1 : Int) : ℚ) * ((0 : Nat) : ℚ)) = 0 := by
      rw [show (((0 : Nat) : ℚ)) = ((0 : Int) : ℚ) by norm_num]
      rw [show totalSeconds (dtSub eA sA) / ((cfg.runCount - 1 : Int) : ℚ) *
        ((0 : Int) : ℚ) = ((0 : Int) : ℚ) by push_cast; ring]
      unfold timedeltaOfSeconds
      rw [show (((0 : Int) : ℚ) * 1000000) = ((0 : Int) : ℚ) by push_cast; ring]
      exact roundHalfEven_intCast 0
    rw [hfdef]
    dsimp only
    rw [this]
    exact addMicros_zero sA hsv
  refine ⟨setLast ((List.range n).map f) eA, hok, hlen, ?_, hentry, ?_, ?_⟩
  · rw [hentry 0 (by omega), hzero]
  · exact setLast_getLast _ _ hne
  · intro K hK i u v hu hv
    have hstep : ∀ j : Nat, timedeltaOfSeconds (totalSeconds (dtSub eA sA) /
        ((cfg.runCount - 1 : Int) : ℚ) * (j : ℚ)) = K * j :=
      timedelta_step (dtSub eA sA) (cfg.runCount - 1) (by omega) K hK
    have hi1 : i + 1 < n := by
      by_contra hge
      have hlb : (setLast ((List.range n).map f) eA).length ≤ i + 1 := by
        rw [hlen]; omega
      rw [List.getElem?_eq_none hlb] at hv
      exact absurd hv (by simp)
    rcases Nat.lt_or_ge (i + 1) (n - 1) with hmid | hlast
    · have hu' := hentry i (by omega)
      have hv' := hentry (i + 1) (by omega)
      rw [hu] at hu'
      rw [hv] at hv'
      obtain rfl : u = f i := Option.some.inj hu'
      obtain rfl : v = f (i + 1) := Option.some.inj hv'
      rw [hfdef]
      dsimp only
      rw [dtSub_eq_instant_sub, hstep i, hstep (i + 1),
        instant_addMicros _ _ hsv, instant_addMicros _ _ hsv]
      push_cast
      ring
    · have hieq : i + 1 = n - 1 := by omega
      have hu' := hentry i (by omega)
      rw [hu] at hu'
      obtain rfl : u = f i := Option.some.inj hu'
      have hv' : (setLast ((List.range n).map f) eA)[i + 1]? = some eA := by
        have := setLast_getElem_last ((List.range n).map f) eA hne
        rw [List.length_map, List.length_range] at this
        rw [show i + 1 = n - 1 from hieq]
        exact this
      rw [hv] at hv'
      obtain rfl : v = eA := Option.some.inj hv'
      rw [hfdef]
      dsimp only
      rw [dtSub_eq_instant_sub, hstep i, instant_addMicros _ _ hsv]
      have hIdt : instantUs eA - instantUs sA = (cfg.runCount - 1) * K := by
        rw [← dtSub_eq_instant_sub]
        exact hK
      have hi2 : (i : Int) = cfg.runCount - 2 := by omega
      rw [hi2]
      have hfold : (cfg.runCount - 1) * K - (cfg.runCount - 2) * K = K := by ring
      linarith [hIdt, hfold, mul_comm K (cfg.runCount - 2)]

/-- Witness for amended C6: a two-run day ends exactly on the 20:00
anchor. -/
theorem schedule_last_is_end_anchor_witness :
    (2 : Int) ≤ (2 : Int) ∧
    [anchorDt ⟨2024, 1, 5⟩ 8 0 DEFAULT_TZ,
        anchorDt ⟨2024, 1, 5⟩ 20 0 DEFAULT_TZ].getLast? =
      some (anchorDt ⟨2024, 1, 5⟩ 20 0 DEFAULT_TZ) :=
  ⟨by decide, schedule_last_is_end_anchor ⟨2024, 1, 5⟩
    { timezone := none, startHour := 8, startMinute := 0, endHour := 20,
      endMinute := 0, runCount := 2 } (by decide) _ rfl⟩

/-- Counterexample to C9 as stated: with a 60-second interval split into
7 sub-microsecond steps, consecutive entries differ by 8571429 then
8571428 microseconds — the deltas are not all equal. -/
theorem schedule_equal_steps_cex :
    generate_daily_schedule ⟨2024, 1, 5⟩
      { timezone := none, startHour := 8, startMinute := 0, endHour := 8,
        endMinute := 1, runCount := 8 } =
      .ok [⟨2024, 1, 5, 28800000000, some 32400000000⟩,
           ⟨2024, 1, 5, 28808571429, some 32400000000⟩,
           ⟨2024, 1, 5, 28817142857, some 32400000000⟩,
           ⟨2024, 1, 5, 28825714286, some 32400000000⟩,
           ⟨2024, 1, 5, 28834285714, some 32400000000⟩,
           ⟨2024, 1, 5, 28842857143, some 32400000000⟩,
           ⟨2024, 1, 5, 28851428571, some 32400000000⟩,
           ⟨2024, 1, 5, 28860000000, some 32400000000⟩] ∧
    dtSub ⟨2024, 1, 5, 28808571429, some 32400000000⟩
        ⟨2024, 1, 5, 28800000000, some 32400000000⟩ ≠
      dtSub ⟨2024, 1, 5, 28817142857, some 32400000000⟩
        ⟨2024, 1, 5, 28808571429, some 32400000000⟩ := by
  constructor
  · norm_num [generate_daily_schedule, build_anchor_datetime, validate_hour,
      validate_minute, coerce_timezone, DEFAULT_TZ, anchorDt, instantUs,
      PyDatetime.toOrdinal, ymdToOrd, daysBeforeYear, daysBeforeMonth,
      daysBeforeMonthBase, isLeap, PyDatetime.off, dtSub, totalSeconds,
      timedeltaOfSeconds, roundHalfEven, addMicros, addDays, usPerDay,
      usPerHour, List.range_succ, setLast]
  · decide

/-- Witness for amended C9: the default 8:00→20:00 three-run schedule
lands on 8:00, 14:00 and 20:00 Tokyo time with exact 6-hour deltas. -/
theorem schedule_interpolation_witness :
    generate_daily_schedule ⟨2024, 1, 5⟩
      { timezone := none, startHour := 8, startMinute := 0, endHour := 20,
        endMinute := 0, runCount := 3 } =
      .ok [⟨2024, 1, 5, 28800000000, some 32400000000⟩,
           ⟨2024, 1, 5, 50400000000, some 32400000000⟩,
           ⟨2024, 1, 5, 72000000000, some 32400000000⟩] ∧
    dtSub ⟨2024, 1, 5, 50400000000, some 32400000000⟩
        ⟨2024, 1, 5, 28800000000, some 32400000000⟩ = 21600000000 ∧
    dtSub ⟨2024, 1, 5, 72000000000, some 32400000000⟩
        ⟨2024, 1, 5, 50400000000, some 32400000000⟩ = 21600000000 := by
  have h0 : generate_daily_schedule ⟨2024, 1, 5⟩
      { timezone := none, startHour := 8, startMinute := 0, endHour := 20,
        endMinute := 0, runCount := 3 } =
      .ok [⟨2024, 1, 5, 28800000000, some 32400000000⟩,
           ⟨2024, 1, 5, 50400000000, some 32400000000⟩,
           ⟨2024, 1, 5, 72000000000, some 32400000000⟩] := by
    norm_num [generate_daily_schedule, build_anchor_datetime, validate_hour,
      validate_minute, coerce_timezone, DEFAULT_TZ, anchorDt, instantUs,
      PyDatetime.toOrdinal, ymdToOrd, daysBeforeYear, daysBeforeMonth,
      daysBeforeMonthBase, isLeap, PyDatetime.off, dtSub, totalSeconds,
      timedeltaOfSeconds, roundHalfEven, addMicros, addDays, usPerDay,
      usPerHour, List.range_succ, setLast]
  obtain ⟨l, hok, -, -, -, -, hsteps⟩ :=
    schedule_interpolation_spec ⟨2024, 1, 5⟩
      { timezone := none, startHour := 8, startMinute := 0, endHour := 20,
        endMinute := 0, runCount := 3 }
      (by decide) (by decide) (by decide) (by decide) (by decide) (by decide)
      (by decide) (by decide)
  have hl : l = [⟨2024, 1, 5, 28800000000, some 32400000000⟩,
      ⟨2024, 1, 5, 50400000000, some 32400000000⟩,
      ⟨2024, 1, 5, 72000000000, some 32400000000⟩] := by
    rw [h0] at hok
    exact (Except.ok.inj hok).symm
  refine ⟨h0, ?_, ?_⟩
  · exact hsteps 21600000000 (by decide) 0
      ⟨2024, 1, 5, 28800000000, some 32400000000⟩
      ⟨2024, 1, 5, 50400000000, some 32400000000⟩
      (by rw [hl]; rfl) (by rw [hl]; rfl)
  · exact hsteps 21600000000 (by decide) 1
      ⟨2024, 1, 5, 50400000000, some 32400000000⟩
      ⟨2024, 1, 5, 72000000000, some 32400000000⟩
      (by rw [hl]; rfl) (by rw [hl]; rfl)

/-! ### Google Ads cost service (`google_ads_alert/google_ads_client.py`) -/

/-- A Python `float` value: either a finite value (idealised as an
exact rational) or one of the non-finite values `nan` / `inf` / `-inf`,
on which CPython `int(...)` raises. -/
inductive PyFloat where
  | finite (q : ℚ)
  | nan
  | inf
  | ninf
  deriving Repr, DecidableEq

/-- The exceptions CPython `int(...)` raises: `ValueError` on an
unparsable string or `nan`, `OverflowError` on an infinity. -/
inductive PyIntExc where
  | valueError
  | overflowError
  deriving Repr, DecidableEq

/-- Decoded row values as the transport may yield them: the shapes
`_extract_cost_micros` dispatches on (str / int / float / dict) plus
catch-all shapes that contribute zero. -/
inductive PyVal where
  | str (s : String)
  | int (n : Int)
  | float (f : PyFloat)
  | dict (entries : List (String × PyVal))
  | list (elems : List PyVal)
  | none

/-- Python `key in value` / `value[key]` on a dict, first match. -/
def lookup : List (String × PyVal) → String → Option PyVal
  | [], _ => Option.none
  | (k, v) :: rest, key => if k = key then some v else lookup rest key

/-- ASCII whitespace stripped by CPython `int(str)` before parsing. -/
def isPySpace (c : Char) : Bool :=
  c = ' ' ∨ c = '\t' ∨ c = '\n' ∨ c = '\r' ∨ c = '\x0b' ∨ c = '\x0c'

/-- Digit run with CPython underscore rules: single underscores are
allowed between digits only.  The flag records that the previous
character was an underscore, so a digit must follow. -/
def digitsValCore : Bool → Nat → List Char → Option Nat
  | false, acc, [] => some acc
  | true, _, [] => Option.none
  | prevU, acc, c :: rest =>
    if c.isDigit then digitsValCore false (acc * 10 + (c.toNat - 48)) rest
    else if c = '_' ∧ prevU = false then digitsValCore true acc rest
    else Option.none

/-- Value of a digit group (`digit ((_)? digit)*`): leading or trailing
underscores and doubled underscores are rejected, as in CPython. -/
def digitsVal (l : List Char) : Option Nat :=
  match l with
  | [] => Option.none
  | c :: _ => if c.isDigit then digitsValCore false 0 l else Option.none

/-- CPython `int(s)` on a numeric string: optional surrounding ASCII
whitespace, an optional sign, then decimal digits with single
underscores between digits.  CPython additionally strips further
Unicode whitespace and accepts non-ASCII decimal digits; those forms
are outside this model and are not exercised by any proved statement. -/
def pyIntOfString (s : String) : Option Int :=
  let stripped :=
    ((s.data.dropWhile isPySpace).reverse.dropWhile isPySpace).reverse
  match stripped with
  | [] => Option.none
  | c :: rest =>
    if c = '-' then (digitsVal rest).map (fun n => -(n : Int))
    else if c = '+' then (digitsVal rest).map (fun n => (n : Int))
    else (digitsVal stripped).map (fun n => (n : Int))

/-- CPython `int(float)` on a finite value: truncation toward zero. -/
def pyIntOfFloat (q : ℚ) : Int := if 0 ≤ q then ⌊q⌋ else ⌈q⌉

/-- CPython `int(...)` on a `float`: truncation on a finite value,
`ValueError` on `nan`, `OverflowError` on an infinity. -/
def pyIntOfPyFloat : PyFloat → Except PyIntExc Int
  | .finite q => .ok (pyIntOfFloat q)
  | .nan => .error .valueError
  | .inf => .error .overflowError
  | .ninf => .error .overflowError

/-- `google_ads_client._extract_cost_micros`: walk `metrics` then
`cost_micros`, defaulting to 0 at every malformed step, then coerce the
leaf.  A string goes through `int(str)` whose `ValueError` is caught
(→ 0); an int is returned as is; a float goes through `int(value)`
with no handler, so a non-finite float raises out of the function;
anything else contributes 0. -/
def extract_cost_micros (row : PyVal) : Except PyIntExc Int :=
  let step : Option PyVal → String → Option PyVal := fun value key =>
    match value with
    | some (PyVal.dict entries) => lookup entries key
    | _ => Option.none
  match step (step (some row) "metrics") "cost_micros" with
  | Option.none => .ok 0
  | some v =>
    match v with
    | .str s => .ok ((pyIntOfString s).getD 0)
    | .int n => .ok n
    | .float f => pyIntOfPyFloat f
    | _ => .ok 0

/-- The `total_micros += _extract_cost_micros(row)` loop: the first
exception escaping a row aborts the whole aggregation. -/
def aggregate_rows_from (total : Int) : List PyVal → Except PyIntExc Int
  | [] => .ok total
  | row :: rest =>
    match extract_cost_micros row with
    | .error pe => .error pe
    | .ok v => aggregate_rows_from (total + v) rest

/-- Sum of the extracted cost micros of `rows`, or the first exception
raised by a row. -/
def aggregate_rows (rows : List PyVal) : Except PyIntExc Int :=
  aggregate_rows_from 0 rows

/-- `RetryConfig` with its defaults; `retryable` stands for the
`isinstance(error, retryable_exceptions)` test. -/
structure RetryConfig (E : Type) where
  maxAttempts : Nat := 3
  initialBackoffSeconds : ℚ := 1
  backoffMultiplier : ℚ := 2
  retryable : E → Bool := fun _ => true

/-- The `__post_init__` validation of `RetryConfig`. -/
def RetryConfig.Valid {E : Type} (cfg : RetryConfig E) : Prop :=
  1 ≤ cfg.maxAttempts ∧ 0 ≤ cfg.initialBackoffSeconds ∧
    1 ≤ cfg.backoffMultiplier

/-- Errors escaping the executor: a transport error re-raised unchanged,
or the unreachable final `RuntimeError`. -/
inductive RunError (E : Type) where
  | api (e : E)
  | runtime
  deriving DecidableEq

/-- Observable behaviour of one `_execute_cost_query` call: its result,
how many transport calls were made, and the recorded sleeps. -/
structure ExecTrace (E : Type) where
  result : Except (RunError E) Int
  calls : Nat
  sleeps : List ℚ

/-- The retry loop of `_execute_cost_query`.  `attempt` is the body of
the `try` block (one transport search followed by row aggregation, both
of whose exceptions the `except` handler catches) indexed by call
number, `idx` the number of calls already made, `rem` the remaining
attempts (`max_attempts - idx`), `delay` the current backoff.  A
retryable error inside the attempt budget sleeps (when the backoff is
positive), multiplies the backoff and recurses; otherwise the error is
re-raised unchanged. -/
def execGo {E : Type} (cfg : RetryConfig E)
    (attempt : Nat → Except E Int) :
    Nat → ℚ → Nat → ExecTrace E
  | _, _, 0 => ⟨.error .runtime, 0, []⟩
  | idx, delay, rem + 1 =>
    match attempt idx with
    | .ok total => ⟨.ok total, 1, []⟩
    | .error e =>
      if cfg.retryable e = false ∨ rem = 0 then ⟨.error (.api e), 1, []⟩
      else
        let toSleep := if 0 < delay then [delay] else []
        let sub := execGo cfg attempt (idx + 1) (delay * cfg.backoffMultiplier) rem
        ⟨sub.result, sub.calls + 1, toSleep ++ sub.sleeps⟩

/-- `QueryRange`; the exclusive upper bound is called `stop` because
`end` is reserved in Lean. -/
structure QueryRange where
  start : PyDatetime
  stop : PyDatetime
  deriving Repr, DecidableEq

/-- `build_daily_query_range`. -/
def build_daily_query_range (asOf : PyDatetime) (timezone : Option Int) :
    QueryRange :=
  let tz := coerce_timezone timezone
  let localized := localize_datetime asOf tz
  let dayStart := { localized with todUs := 0 }
  ⟨dayStart, addMicros dayStart usPerDay⟩

/-- `build_month_to_date_query_range`. -/
def build_month_to_date_query_range (asOf : PyDatetime)
    (timezone : Option Int) : QueryRange :=
  let tz := coerce_timezone timezone
  let localized := localize_datetime asOf tz
  let monthStart := { localized with day := 1, todUs := 0 }
  let nextDayStart := addMicros { localized with todUs := 0 } usPerDay
  ⟨monthStart, nextDayStart⟩

/-- Simple date rendering for the GAQL filter (zero padding and quote
characters of the source format are immaterial to the claims). -/
def formatDate (t : PyDatetime) : String :=
  toString t.year ++ "-" ++ toString t.month ++ "-" ++ toString t.day

/-- `build_cost_query`: the inclusive end of the filter is the exclusive
`stop` minus one day. -/
def build_cost_query (qr : QueryRange) : String :=
  "SELECT segments.date, metrics.cost_micros FROM customer " ++
    "WHERE segments.date BETWEEN " ++ formatDate qr.start ++ " AND " ++
    formatDate (addMicros qr.stop (-usPerDay))

/-- Configuration of the cost service (credential fields play no role
in any verified claim and are elided). -/
structure GoogleAdsClientConfig where
  customerId : String
  timezone : Option Int := Option.none
  endpoint : String := "https://googleads.googleapis.com"

/-- The cost service: configuration, call-indexed transport (first
argument: customer id, second: rendered query) and retry policy.  The
injected `sleep` callable is modelled by the recorded `sleeps` list of
the execution trace.  `E` is the exception universe of a run;
`intExc` embeds the `ValueError` / `OverflowError` values that
`int(...)` may raise during row aggregation into that universe, so the
single `is_retryable` predicate judges them exactly as in the source. -/
structure GoogleAdsCostService (E : Type) where
  config : GoogleAdsClientConfig
  transport : String → String → Nat → Except E (List PyVal)
  retryConfig : RetryConfig E
  intExc : PyIntExc → E

/-- The body of one `try`-block attempt of `_execute_cost_query`: run
the transport search and aggregate the rows; an exception from either
step escapes to the retry handler. -/
def attempt_cost_query {E : Type} (svc : GoogleAdsCostService E)
    (qr : QueryRange) (idx : Nat) : Except E Int :=
  match svc.transport svc.config.customerId (build_cost_query qr) idx with
  | .error err => .error err
  | .ok rows => (aggregate_rows rows).mapError svc.intExc

/-- `GoogleAdsCostService._execute_cost_query`. -/
def GoogleAdsCostService.execute_cost_query {E : Type}
    (svc : GoogleAdsCostService E) (qr : QueryRange) : ExecTrace E :=
  execGo svc.retryConfig (attempt_cost_query svc qr)
    0 svc.retryConfig.initialBackoffSeconds svc.retryConfig.maxAttempts

/-- `DailyCostSummary`. -/
structure DailyCostSummary where
  asOf : PyDatetime
  reportStart : PyDatetime
  reportEnd : PyDatetime
  totalCostMicros : Int
  deriving Repr, DecidableEq

/-- `DailyCostSummary.total_cost`: micros to currency units. -/
def DailyCostSummary.totalCost (s : DailyCostSummary) : ℚ :=
  (s.totalCostMicros : ℚ) / 1000000

/-- `MonthToDateCostSummary`. -/
structure MonthToDateCostSummary where
  asOf : PyDatetime
  reportStart : PyDatetime
  reportEnd : PyDatetime
  totalCostMicros : Int
  deriving Repr, DecidableEq

/-- `MonthToDateCostSummary.total_cost`. -/
def MonthToDateCostSummary.totalCost (s : MonthToDateCostSummary) : ℚ :=
  (s.totalCostMicros : ℚ) / 1000000

/-- `GoogleAdsCostService.fetch_daily_cost`. -/
def GoogleAdsCostService.fetch_daily_cost {E : Type}
    (svc : GoogleAdsCostService E) (asOf : PyDatetime) :
    Except (RunError E) DailyCostSummary :=
  let tz := coerce_timezone svc.config.timezone
  let localized := localize_datetime asOf tz
  let qr := build_daily_query_range localized (some tz)
  match (svc.execute_cost_query qr).result with
  | .error e => .error e
  | .ok totalMicros => .ok ⟨localized, qr.start, qr.stop, totalMicros⟩

/-- `GoogleAdsCostService.fetch_month_to_date_cost`. -/
def GoogleAdsCostService.fetch_month_to_date_cost {E : Type}
    (svc : GoogleAdsCostService E) (asOf : PyDatetime) :
    Except (RunError E) MonthToDateCostSummary :=
  let tz := coerce_timezone svc.config.timezone
  let localized := localize_datetime asOf tz
  let qr := build_month_to_date_query_range localized (some tz)
  match (svc.execute_cost_query qr).result with
  | .error e => .error e
  | .ok totalMicros => .ok ⟨localized, qr.start, qr.stop, totalMicros⟩

/-! ### Retry behaviour (claim C4) -/

theorem backoffs_shift (delay m : ℚ) (r : Nat) :
    ((List.range (r + 1)).map (fun k => delay * m ^ k)).filter
        (fun q => decide (0 < q)) =
      (if 0 < delay then [delay] else []) ++
        ((List.range r).map (fun k => delay * m * m ^ k)).filter
          (fun q => decide (0 < q)) := by
  rw [List.range_succ_eq_map, List.map_cons, List.map_map, List.filter_cons]
  have hshift : ((fun k => delay * m ^ k) ∘ fun i => i + 1) =
      fun k => delay * m * m ^ k := by
    funext k
    simp only [Function.comp, pow_succ]
    ring
  rw [hshift]
  simp only [pow_zero, mul_one, decide_eq_true_eq]
  split_ifs <;> simp

theorem execGo_all_fail {E : Type} (cfg : RetryConfig E)
    (attempt : Nat → Except E Int) (e : Nat → E)
    (hfail : ∀ i, attempt i = .error (e i))
    (hr : ∀ i, cfg.retryable (e i) = true) :
    ∀ rem idx delay, 1 ≤ rem →
      execGo cfg attempt idx delay rem =
        ⟨.error (.api (e (idx + rem - 1))), rem,
         ((List.range (rem - 1)).map
           (fun k => delay * cfg.backoffMultiplier ^ k)).filter
           (fun q => decide (0 < q))⟩ := by
  intro rem
  induction rem with
  | zero => omega
  | succ r ih =>
    intro idx delay hrem
    unfold execGo
    simp only [hfail idx]
    rcases Nat.eq_zero_or_pos r with hr0 | hrpos
    · subst hr0
      rw [if_pos (Or.inr rfl)]
      simp
    · rw [if_neg (by simp only [hr idx]; simp; omega)]
      rw [ih (idx + 1) (delay * cfg.backoffMultiplier) (by omega)]
      have hidx : idx + 1 + r - 1 = idx + (r + 1) - 1 := by omega
      have hrange : r + 1 - 1 = (r - 1) + 1 := by omega
      rw [hidx, hrange, backoffs_shift]

theorem execGo_nonretryable {E : Type} (cfg : RetryConfig E)
    (attempt : Nat → Except E Int) (e : Nat → E) (bad : E)
    (hbad : cfg.retryable bad = false) :
    ∀ k rem idx delay, k + 1 ≤ rem →
      (∀ i, i < k → attempt (idx + i) = .error (e (idx + i)) ∧
        cfg.retryable (e (idx + i)) = true) →
      attempt (idx + k) = .error bad →
      execGo cfg attempt idx delay rem =
        ⟨.error (.api bad), k + 1,
         ((List.range k).map
           (fun j => delay * cfg.backoffMultiplier ^ j)).filter
           (fun q => decide (0 < q))⟩ := by
  intro k
  induction k with
  | zero =>
    intro rem idx delay hrem hpre hk
    obtain ⟨r, rfl⟩ : ∃ r, rem = r + 1 := ⟨rem - 1, by omega⟩
    rw [show idx + 0 = idx from rfl] at hk
    unfold execGo
    simp only [hk]
    rw [if_pos (Or.inl hbad)]
    simp
  | succ k ih =>
    intro rem idx delay hrem hpre hk
    obtain ⟨r, rfl⟩ : ∃ r, rem = r + 1 := ⟨rem - 1, by omega⟩
    obtain ⟨hf0, hr0⟩ := hpre 0 (by omega)
    rw [show idx + 0 = idx from rfl] at hf0 hr0
    unfold execGo
    simp only [hf0]
    rw [if_neg (by simp only [hr0]; simp; omega)]
    rw [ih r (idx + 1) (delay * cfg.backoffMultiplier) (by omega)
      (fun i hi => by
        have := hpre (i + 1) (by omega)
        rwa [show idx + (i + 1) = idx + 1 + i by omega] at this)
      (by rwa [show idx + 1 + k = idx + (k + 1) by omega])]
    rw [backoffs_shift]

/-- C4: with a valid `RetryConfig` of `n = max_attempts ≥ 1` and a
transport that raises a retryable error on every call, the executor
calls the transport exactly `n` times, records the positive backoffs
`initial * multiplier ^ k` for `k = 0 .. n-2` as sleeps (all `n - 1` of
them when the initial backoff is positive, since the multiplier is at
least 1), and re-raises the last transport error unchanged; a
non-retryable error raised on call `k` propagates unchanged after
exactly `k + 1` calls with only the earlier sleeps recorded. -/
theorem cost_query_retry_spec {E : Type} (svc : GoogleAdsCostService E)
    (qr : QueryRange) (e : Nat → E) (hv : svc.retryConfig.Valid) :
    ((∀ i, svc.transport svc.config.customerId (build_cost_query qr) i =
        .error (e i)) →
     (∀ i, svc.retryConfig.retryable (e i) = true) →
      svc.execute_cost_query qr =
        ⟨.error (.api (e (svc.retryConfig.maxAttempts - 1))),
         svc.retryConfig.maxAttempts,
         ((List.range (svc.retryConfig.maxAttempts - 1)).map
           (fun k => svc.retryConfig.initialBackoffSeconds *
             svc.retryConfig.backoffMultiplier ^ k)).filter
           (fun q => decide (0 < q))⟩ ∧
      (0 < svc.retryConfig.initialBackoffSeconds →
        ((List.range (svc.retryConfig.maxAttempts - 1)).map
          (fun k => svc.retryConfig.initialBackoffSeconds *
            svc.retryConfig.backoffMultiplier ^ k)).filter
          (fun q => decide (0 < q)) =
        (List.range (svc.retryConfig.maxAttempts - 1)).map
          (fun k => svc.retryConfig.initialBackoffSeconds *
            svc.retryConfig.backoffMultiplier ^ k))) ∧
    (∀ k bad, k < svc.retryConfig.maxAttempts →
      (∀ i, i < k → svc.transport svc.config.customerId (build_cost_query qr) i =
        .error (e i) ∧ svc.retryConfig.retryable (e i) = true) →
      svc.transport svc.config.customerId (build_cost_query qr) k = .error bad →
      svc.retryConfig.retryable bad = false →
      svc.execute_cost_query qr =
        ⟨.error (.api bad), k + 1,
         ((List.range k).map
           (fun j => svc.retryConfig.initialBackoffSeconds *
             svc.retryConfig.backoffMultiplier ^ j)).filter
           (fun q => decide (0 < q))⟩) := by
  obtain ⟨hmax, hinit, hmult⟩ := hv
  constructor
  · intro hfail hr
    have hfail' : ∀ i, attempt_cost_query svc qr i = .error (e i) := by
      intro i
      unfold attempt_cost_query
      rw [hfail i]
    constructor
    · unfold GoogleAdsCostService.execute_cost_query
      rw [execGo_all_fail svc.retryConfig _ e hfail' hr
        svc.retryConfig.maxAttempts 0 _ hmax]
      have : 0 + svc.retryConfig.maxAttempts - 1 =
          svc.retryConfig.maxAttempts - 1 := by omega
      rw [this]
    · intro hpos
      apply List.filter_eq_self.mpr
      intro a ha
      obtain ⟨k, -, rfl⟩ := List.mem_map.mp ha
      have : (0 : ℚ) < svc.retryConfig.initialBackoffSeconds *
          svc.retryConfig.backoffMultiplier ^ k :=
        mul_pos hpos (pow_pos (by linarith) k)
      simpa using this
  · intro k bad hk hpre hbad hnr
    have hpre' : ∀ i, i < k → attempt_cost_query svc qr (0 + i) =
        .error (e (0 + i)) ∧ svc.retryConfig.retryable (e (0 + i)) = true := by
      intro i hi
      have := hpre i hi
      constructor
      · unfold attempt_cost_query
        rw [(by simpa using this.1 :
          svc.transport svc.config.customerId (build_cost_query qr) (0 + i) =
            .error (e (0 + i)))]
      · simpa using this.2
    have hbad' : attempt_cost_query svc qr (0 + k) = .error bad := by
      unfold attempt_cost_query
      rw [(by simpa using hbad :
        svc.transport svc.config.customerId (build_cost_query qr) (0 + k) =
          .error bad)]
    unfold GoogleAdsCostService.execute_cost_query
    rw [execGo_nonretryable svc.retryConfig _ e bad hnr k
      svc.retryConfig.maxAttempts 0 _ (by omega) hpre' hbad']

/-- Witness for C4: two attempts, both failing retryably, give exactly
two calls, one recorded sleep of the initial backoff, and re-raise the
second error. -/
theorem cost_query_retry_witness :
    (GoogleAdsCostService.execute_cost_query
      { config := { customerId := "1234567890" },
        transport := (fun _ _ i => .error i),
        retryConfig := { maxAttempts := 2, initialBackoffSeconds := 1,
                         backoffMultiplier := 2,
                         retryable := fun _ => true },
        intExc := (fun _ => 0) }
      ⟨⟨2024, 6, 10, 0, some DEFAULT_TZ⟩, ⟨2024, 6, 11, 0, some DEFAULT_TZ⟩⟩ :
        ExecTrace Nat) =
      ⟨.error (.api 1), 2, [1]⟩ := by
  have h := (cost_query_retry_spec
    { config := { customerId := "1234567890" },
      transport := (fun _ _ i => .error i),
      retryConfig := { maxAttempts := 2, initialBackoffSeconds := 1,
                       backoffMultiplier := 2,
                       retryable := fun _ => true },
      intExc := (fun _ => 0) }
    ⟨⟨2024, 6, 10, 0, some DEFAULT_TZ⟩, ⟨2024, 6, 11, 0, some DEFAULT_TZ⟩⟩
    (fun i => i) ⟨by decide, zero_le_one, one_le_two⟩).1
    (fun i => rfl) (fun i => rfl)
  rw [h.1]
  norm_num [List.range_succ, List.range_zero]

/-! ### Cost aggregation and the non-finite float slip (claim C8) -/

/-- The heterogeneous example rows of the spec: a string cost, an int
cost, and a row with no cost at all. -/
def demoRows : List PyVal :=
  [PyVal.dict [("metrics", PyVal.dict [("cost_micros", PyVal.str "1000000")])],
   PyVal.dict [("metrics", PyVal.dict [("cost_micros", PyVal.int 2000000)])],
   PyVal.dict [("metrics", PyVal.dict [])]]

/-- A cost service whose transport always yields `demoRows`. -/
def demoCostService : GoogleAdsCostService Unit :=
  { config := { customerId := "1234567890", timezone := some DEFAULT_TZ },
    transport := (fun _ _ _ => .ok demoRows),
    retryConfig := {},
    intExc := (fun _ => ()) }

/-- The row on which the extraction raises: `metrics.cost_micros` is the
float `nan`. -/
def nanRow : PyVal :=
  PyVal.dict [("metrics", PyVal.dict [("cost_micros",
    PyVal.float PyFloat.nan)])]

/-- A cost service with the default retry policy whose transport always
yields the single `nan` row; the exception universe is `PyIntExc` itself
and the default `retryable_exceptions = (Exception,)` judges every
exception retryable. -/
def nanCostService : GoogleAdsCostService PyIntExc :=
  { config := { customerId := "1234567890", timezone := some DEFAULT_TZ },
    transport := (fun _ _ _ => .ok [nanRow]),
    retryConfig := {},
    intExc := id }

/-- C8 (code bug): the documented intent — claim, spec sections 4.3 and
7, and the docstring of `_extract_cost_micros` — is that a malformed
`cost_micros` contributes 0 and aggregation never fails because of a
single bad row, yet the float branch calls `int(value)` with no
handler, so `int(nan)` raises `ValueError` and `int(inf)` raises
`OverflowError` out of the per-row extraction.  The example rows do
aggregate to 3000000 micros (total cost 3), a whitespace or underscore
string is parsed, but the `nan` row makes the whole `fetch_daily_cost`
fail after the default three retry attempts. -/
theorem cost_extraction_nan_raises :
    extract_cost_micros nanRow = .error PyIntExc.valueError ∧
    extract_cost_micros (PyVal.dict [("metrics", PyVal.dict [("cost_micros",
      PyVal.float PyFloat.inf)])]) = .error PyIntExc.overflowError ∧
    extract_cost_micros (PyVal.dict [("metrics", PyVal.dict [("cost_micros",
      PyVal.float (PyFloat.finite (5/2)))])]) = .ok 2 ∧
    extract_cost_micros (PyVal.dict [("metrics", PyVal.dict [("cost_micros",
      PyVal.str " 1_000 ")])]) = .ok 1000 ∧
    extract_cost_micros (PyVal.dict [("metrics", PyVal.dict [("cost_micros",
      PyVal.str "garbage")])]) = .ok 0 ∧
    aggregate_rows demoRows = .ok 3000000 ∧
    demoCostService.fetch_daily_cost
      ⟨2024, 6, 10, 12 * usPerHour, some DEFAULT_TZ⟩ =
      .ok ⟨⟨2024, 6, 10, 12 * usPerHour, some DEFAULT_TZ⟩,
        ⟨2024, 6, 10, 0, some DEFAULT_TZ⟩,
        ⟨2024, 6, 11, 0, some DEFAULT_TZ⟩, 3000000⟩ ∧
    DailyCostSummary.totalCost ⟨⟨2024, 6, 10, 12 * usPerHour, some DEFAULT_TZ⟩,
      ⟨2024, 6, 10, 0, some DEFAULT_TZ⟩,
      ⟨2024, 6, 11, 0, some DEFAULT_TZ⟩, 3000000⟩ = 3 ∧
    aggregate_rows [nanRow] = .error PyIntExc.valueError ∧
    (nanCostService.execute_cost_query
      (build_daily_query_range ⟨2024, 6, 10, 12 * usPerHour, some DEFAULT_TZ⟩
        (some DEFAULT_TZ))).calls = 3 ∧
    nanCostService.fetch_daily_cost
      ⟨2024, 6, 10, 12 * usPerHour, some DEFAULT_TZ⟩ =
      .error (.api PyIntExc.valueError) := by
  have hattempt : ∀ i, attempt_cost_query nanCostService
      (build_daily_query_range ⟨2024, 6, 10, 12 * usPerHour, some DEFAULT_TZ⟩
        (some DEFAULT_TZ)) i =
      .error ((fun _ => PyIntExc.valueError) i) := by
    intro i
    rfl
  have htrace : nanCostService.execute_cost_query
      (build_daily_query_range ⟨2024, 6, 10, 12 * usPerHour, some DEFAULT_TZ⟩
        (some DEFAULT_TZ)) =
      ⟨.error (.api PyIntExc.valueError), 3,
       ((List.range 2).map (fun k => (1 : ℚ) * 2 ^ k)).filter
         (fun q => decide (0 < q))⟩ :=
    execGo_all_fail nanCostService.retryConfig _
      (fun _ => PyIntExc.valueError) hattempt (fun i => rfl) 3 0 1 (by decide)
  have hqr : build_daily_query_range
      (localize_datetime ⟨2024, 6, 10, 12 * usPerHour, some DEFAULT_TZ⟩
        (coerce_timezone nanCostService.config.timezone))
      (some (coerce_timezone nanCostService.config.timezone)) =
      build_daily_query_range ⟨2024, 6, 10, 12 * usPerHour, some DEFAULT_TZ⟩
        (some DEFAULT_TZ) := by
    decide
  refine ⟨rfl, rfl, ?_, rfl, rfl, rfl, ?_, ?_, rfl, ?_, ?_⟩
  · show pyIntOfPyFloat (PyFloat.finite (5 / 2)) = .ok 2
    show Except.ok (pyIntOfFloat (5 / 2)) = .ok 2
    unfold pyIntOfFloat
    rw [if_pos (by norm_num)]
    norm_num
  · rfl
  · norm_num [DailyCostSummary.totalCost]
  · rw [htrace]
  · unfold GoogleAdsCostService.fetch_daily_cost
    simp only [hqr, htrace]

/-! ### Combined forecast and workflow (`google_ads_alert/workflow.py`) -/

/-- Modelled from the spec: `CombinedForecastInput` is imported from
`google_ads_alert.forecast` by `workflow.py` and the tests, but its
definition is missing from the source tree; fields follow spec section 3
and the call sites. -/
structure CombinedForecastInput where
  asOf : PyDatetime
  currentSpend : ℚ
  monthToDateSpend : ℚ
  dailyBudget : Option ℚ := Option.none
  monthlyBudget : Option ℚ := Option.none
  timezone : Option Int := Option.none

/-- Modelled from the spec: `CombinedForecastResult` pairs the daily and
monthly results plus budget-gap fields (budget minus projection,
positive meaning under budget); its definition is missing from the
source tree. -/
structure CombinedForecastResult where
  daily : DailyForecastResult
  monthly : MonthlyPaceResult
  dailyBudget : Option ℚ
  monthlyBudget : Option ℚ
  dailyBudgetGap : Option ℚ
  monthlyBudgetGap : Option ℚ

/-- Modelled from the spec: `build_combined_forecast` runs both forecast
calculations on the shared input and fills the gap fields with budget
minus projection, `Option.none` when the budget or the daily projection
is missing; its definition is missing from the source tree. -/
def build_combined_forecast (p : CombinedForecastInput) :
    CombinedForecastResult :=
  let daily := calculate_daily_projection
    ⟨p.asOf, p.currentSpend, p.dailyBudget, p.timezone⟩
  let monthly := calculate_monthly_pace
    ⟨p.asOf, p.monthToDateSpend, p.monthlyBudget, p.timezone⟩
  { daily := daily,
    monthly := monthly,
    dailyBudget := p.dailyBudget,
    monthlyBudget := p.monthlyBudget,
    dailyBudgetGap :=
      match p.dailyBudget, daily.projectedSpend with
      | some b, some proj => some (b - proj)
      | _, _ => Option.none,
    monthlyBudgetGap :=
      match p.monthlyBudget with
      | some b => some (b - monthly.projectedMonthEndSpend)
      | _ => Option.none }

/-- Duck-typed cost service consumed by `build_forecast_snapshot` (the
tests inject a dummy with exactly this shape); exceptions of the real
service would propagate before any snapshot logic runs, so the snapshot
is modelled on the success path. -/
structure CostServiceIface where
  fetchDailyCost : PyDatetime → DailyCostSummary
  fetchMonthToDateCost : PyDatetime → MonthToDateCostSummary

/-- `workflow.ForecastSnapshot`. -/
structure ForecastSnapshot where
  asOf : PyDatetime
  dailyCost : DailyCostSummary
  monthToDateCost : MonthToDateCostSummary
  forecast : CombinedForecastResult

/-- `workflow.build_forecast_snapshot`; `now` stands for
`datetime.now(timezone.utc)` used when `as_of` is omitted, and in the
fixed-offset model every attached zone plays the role of a `ZoneInfo`
instance for the timezone-candidate check. -/
def build_forecast_snapshot (costService : CostServiceIface)
    (now : PyDatetime) (asOf : Option PyDatetime)
    (dailyBudget : Option ℚ) (monthlyBudget : Option ℚ)
    (timezoneOverride : Option Int) : ForecastSnapshot :=
  let reference := asOf.getD now
  let dailySummary := costService.fetchDailyCost reference
  let monthSummary := costService.fetchMonthToDateCost reference
  let tzCandidate :=
    match timezoneOverride with
    | some tz => some tz
    | Option.none => dailySummary.asOf.tz
  let tz := coerce_timezone tzCandidate
  let forecast := build_combined_forecast
    ⟨dailySummary.asOf, dailySummary.totalCost, monthSummary.totalCost,
     dailyBudget, monthlyBudget, some tz⟩
  ⟨dailySummary.asOf, dailySummary, monthSummary, forecast⟩

theorem combined_dailyGap_some (p : CombinedForecastInput) (b proj : ℚ)
    (hb : p.dailyBudget = some b)
    (hp : (build_combined_forecast p).daily.projectedSpend = some proj) :
    (build_combined_forecast p).dailyBudgetGap = some (b - proj) := by
  unfold build_combined_forecast at hp ⊢
  dsimp only at hp ⊢
  rw [hp, hb]

theorem combined_dailyGap_noneBudget (p : CombinedForecastInput)
    (hb : p.dailyBudget = Option.none) :
    (build_combined_forecast p).dailyBudgetGap = Option.none := by
  unfold build_combined_forecast
  dsimp only
  rw [hb]

theorem combined_dailyGap_noneProj (p : CombinedForecastInput)
    (hp : (build_combined_forecast p).daily.projectedSpend = Option.none) :
    (build_combined_forecast p).dailyBudgetGap = Option.none := by
  unfold build_combined_forecast at hp ⊢
  dsimp only at hp ⊢
  rw [hp]
  rcases p.dailyBudget with - | b <;> rfl

theorem combined_monthlyGap_some (p : CombinedForecastInput) (b : ℚ)
    (hb : p.monthlyBudget = some b) :
    (build_combined_forecast p).monthlyBudgetGap =
      some (b - (build_combined_forecast p).monthly.projectedMonthEndSpend) := by
  unfold build_combined_forecast
  dsimp only
  rw [hb]

theorem combined_monthlyGap_none (p : CombinedForecastInput)
    (hb : p.monthlyBudget = Option.none) :
    (build_combined_forecast p).monthlyBudgetGap = Option.none := by
  unfold build_combined_forecast
  dsimp only
  rw [hb]

/-- C3: the snapshot feeds both summary totals into the forecast engine
— its combined result holds the daily projection of the daily total and
the monthly pace of the month-to-date total — and the budget-gap fields
are budget minus projection, positive exactly when the projection is
under budget and negative exactly when it is over. -/
theorem forecast_snapshot_combines (costService : CostServiceIface)
    (now : PyDatetime) (asOf : Option PyDatetime)
    (dailyBudget monthlyBudget : Option ℚ) (tzOverride : Option Int) :
    ∀ snap, build_forecast_snapshot costService now asOf dailyBudget
        monthlyBudget tzOverride = snap →
      snap.forecast.daily = calculate_daily_projection
        ⟨(costService.fetchDailyCost (asOf.getD now)).asOf,
         (costService.fetchDailyCost (asOf.getD now)).totalCost,
         dailyBudget,
         some (coerce_timezone (match tzOverride with
           | some tz => some tz
           | Option.none => (costService.fetchDailyCost (asOf.getD now)).asOf.tz))⟩ ∧
      snap.forecast.monthly = calculate_monthly_pace
        ⟨(costService.fetchDailyCost (asOf.getD now)).asOf,
         (costService.fetchMonthToDateCost (asOf.getD now)).totalCost,
         monthlyBudget,
         some (coerce_timezone (match tzOverride with
           | some tz => some tz
           | Option.none => (costService.fetchDailyCost (asOf.getD now)).asOf.tz))⟩ ∧
      snap.forecast.daily.currentSpend =
        (costService.fetchDailyCost (asOf.getD now)).totalCost ∧
      snap.forecast.monthly.monthToDateSpend =
        (costService.fetchMonthToDateCost (asOf.getD now)).totalCost ∧
      (∀ b p, dailyBudget = some b →
        snap.forecast.daily.projectedSpend = some p →
          snap.forecast.dailyBudgetGap = some (b - p) ∧
          (0 < b - p ↔ p < b) ∧ (b - p < 0 ↔ b < p)) ∧
      (dailyBudget = Option.none →
        snap.forecast.dailyBudgetGap = Option.none) ∧
      (snap.forecast.daily.projectedSpend = Option.none →
        snap.forecast.dailyBudgetGap = Option.none) ∧
      (∀ b, monthlyBudget = some b →
        snap.forecast.monthlyBudgetGap =
          some (b - snap.forecast.monthly.projectedMonthEndSpend) ∧
        (0 < b - snap.forecast.monthly.projectedMonthEndSpend ↔
          snap.forecast.monthly.projectedMonthEndSpend < b)) ∧
      (monthlyBudget = Option.none →
        snap.forecast.monthlyBudgetGap = Option.none) := by
  intro snap hsnap
  subst hsnap
  refine ⟨rfl, rfl, rfl, rfl, ?_, ?_, ?_, ?_, ?_⟩
  · intro b p hb hp
    exact ⟨combined_dailyGap_some _ b p hb hp, sub_pos, sub_neg⟩
  · intro hb
    exact combined_dailyGap_noneBudget _ hb
  · intro hp
    exact combined_dailyGap_noneProj _ hp
  · intro b hb
    exact ⟨combined_monthlyGap_some _ b hb, sub_pos⟩
  · intro hb
    exact combined_monthlyGap_none _ hb

/-- Cost service stub for the workflow witness, mirroring the fixtures
of the workflow tests. -/
def demoWorkflowService : CostServiceIface :=
  { fetchDailyCost := (fun _ =>
      ⟨⟨2024, 6, 10, 12 * usPerHour, some DEFAULT_TZ⟩,
       ⟨2024, 6, 10, 0, some DEFAULT_TZ⟩,
       ⟨2024, 6, 11, 0, some DEFAULT_TZ⟩, 5000000⟩),
    fetchMonthToDateCost := (fun _ =>
      ⟨⟨2024, 6, 10, 12 * usPerHour, some DEFAULT_TZ⟩,
       ⟨2024, 6, 1, 0, some DEFAULT_TZ⟩,
       ⟨2024, 6, 11, 0, some DEFAULT_TZ⟩, 55000000⟩) }

/-- Witness for C3 at the test fixture: the snapshot's combined result
runs the daily projection on the daily summary total. -/
theorem forecast_snapshot_combines_witness :
    (build_forecast_snapshot demoWorkflowService
      ⟨2024, 6, 10, 3 * usPerHour, some 0⟩ Option.none (some 10) (some 300)
      (some DEFAULT_TZ)).forecast.daily =
      calculate_daily_projection
        ⟨⟨2024, 6, 10, 12 * usPerHour, some DEFAULT_TZ⟩,
         (demoWorkflowService.fetchDailyCost
           ⟨2024, 6, 10, 3 * usPerHour, some 0⟩).totalCost,
         some 10, some DEFAULT_TZ⟩ :=
  (forecast_snapshot_combines demoWorkflowService
    ⟨2024, 6, 10, 3 * usPerHour, some 0⟩ Option.none (some 10) (some 300)
    (some DEFAULT_TZ) _ rfl).1
